import Mathlib

/-!
# Accessor and view engine: type-trait registry, table accessor, sort views

A shallow embedding of

* `src/realm/column_type_traits.hpp` (the compile-time type-trait registry),
* `src/tightdb/table.hpp` (the dynamic table accessor),
* `src/realm/views.hpp` (sort descriptors and the row-index view base),

followed by the properties established about them.

C++ types are values of `CppType`; a class template is a constructor taking
its argument; a template whose members are type aliases is a function on
`CppType`; a member that a specialisation does not declare is `none`.
-/

set_option autoImplicit false

namespace realm

/-! ## Types named by `column_type_traits.hpp` -/

/-- The C++ types that `column_type_traits.hpp` names. `Optional T` is
`util::Optional<T>`, `Column T` is `Column<T>`, `BasicArray T` is `BasicArray<T>`;
two instantiations of a template are the same type only for the same argument. -/
inductive CppType where
  | int64_t
  | bool
  | float
  | double
  | Key
  | Timestamp
  | OldDateTime
  | StringData
  | BinaryData
  | Optional (T : CppType)
  | Column (T : CppType)
  | IntegerColumn
  | IntNullColumn
  | FloatColumn
  | DoubleColumn
  | BinaryColumn
  | ArraySmallBlobs
  | ArrayString
  | ArrayStringShort
  | ArrayBinary
  | ArrayTimestamp
  | ArrayInteger
  | ArrayIntNull
  | ArrayBool
  | ArrayBoolNull
  | ArrayKey
  | BasicArray (T : CppType)
  deriving DecidableEq, Repr

/-- Modelled from the spec: `enum Action` is declared in `realm/array.hpp`, which is
not among the sources; `column_type_traits.hpp` names `act_Sum` only. The other
members are the aggregate actions the spec lists (min, max, count, average)
and the search actions. -/
inductive Action where
  | act_ReturnFirst
  | act_Sum
  | act_Max
  | act_Min
  | act_Count
  | act_FindAll
  | act_CallIdx
  | act_CallbackIdx
  | act_CallbackVal
  | act_CallbackNone
  | act_CallbackBoth
  | act_Average
  deriving DecidableEq, Repr

/-- Modelled from the spec: `enum DataType` is declared in `realm/data_type.hpp`, which is
not among the sources. The members are the logical column kinds of the spec's
data model together with the legacy datetime the trait registry names. -/
inductive DataType where
  | type_Int
  | type_Bool
  | type_Float
  | type_Double
  | type_String
  | type_Binary
  | type_Timestamp
  | type_Link
  | type_LinkList
  | type_Table
  | type_Mixed
  | type_OldDateTime
  deriving DecidableEq, Repr

/-- Modelled from the spec: `enum ColumnType` is declared in `realm/column_type.hpp`, which
is not among the sources. One member per `col_type_` constant the trait registry
names, and one for each further column kind of the spec's data model. -/
inductive ColumnType where
  | col_type_Int
  | col_type_Bool
  | col_type_Float
  | col_type_Double
  | col_type_String
  | col_type_StringEnum
  | col_type_Binary
  | col_type_Timestamp
  | col_type_Link
  | col_type_LinkList
  | col_type_BackLink
  | col_type_Table
  | col_type_Mixed
  | col_type_OldDateTime
  deriving DecidableEq, Repr

/-! ## `AggregateResultType` -/

/-- The member `result_type` of `template <class T, Action action> struct AggregateResultType`:
the primary template gives `T`; the partial specialisation for
`util::Optional<int64_t>` gives `int64_t` for every action; the full
specialisation for `float, act_Sum` gives `double`. -/
def AggregateResultType (T : CppType) (action : Action) : CppType :=
  match T, action with
  | .Optional .int64_t, _ => .int64_t
  | .float, .act_Sum => .double
  | T, _ => T

/-! ## `ColumnTypeTraits` -/

/-- The members a specialisation of `ColumnTypeTraits` can declare. A member the
specialisation neither declares nor inherits is `none` (naming it does not
compile). -/
structure ColumnTypeTraitsMembers where
  column_type : Option CppType
  leaf_type : Option CppType
  cluster_leaf_type : Option CppType
  sum_type : Option CppType
  minmax_type : Option CppType
  id : Option DataType
  column_id : Option ColumnType
  real_column_type : Option ColumnType
  deriving DecidableEq, Repr

/-- The specialisation `ColumnTypeTraits<int64_t>`. -/
def ColumnTypeTraits_int64_t : ColumnTypeTraitsMembers where
  column_type := some (.Column .int64_t)
  leaf_type := some .ArrayInteger
  cluster_leaf_type := some .ArrayInteger
  sum_type := some .int64_t
  minmax_type := some .int64_t
  id := some .type_Int
  column_id := some .col_type_Int
  real_column_type := some .col_type_Int

/-- The specialisation `ColumnTypeTraits<util::Optional<int64_t>>`. -/
def ColumnTypeTraits_Optional_int64_t : ColumnTypeTraitsMembers where
  column_type := some (.Column (.Optional .int64_t))
  leaf_type := some .ArrayIntNull
  cluster_leaf_type := some .ArrayIntNull
  sum_type := some .int64_t
  minmax_type := some .int64_t
  id := some .type_Int
  column_id := some .col_type_Int
  real_column_type := some .col_type_Int

/-- The specialisation `ColumnTypeTraits<bool> : ColumnTypeTraits<int64_t>`. -/
def ColumnTypeTraits_bool : ColumnTypeTraitsMembers :=
  { ColumnTypeTraits_int64_t with
    cluster_leaf_type := some .ArrayBool
    id := some .type_Bool
    column_id := some .col_type_Bool }

/-- The specialisation `ColumnTypeTraits<Key>`. -/
def ColumnTypeTraits_Key : ColumnTypeTraitsMembers where
  column_type := none
  leaf_type := none
  cluster_leaf_type := some .ArrayKey
  sum_type := none
  minmax_type := none
  id := some .type_Link
  column_id := some .col_type_Link
  real_column_type := none

/-- The specialisation
`ColumnTypeTraits<util::Optional<bool>> : ColumnTypeTraits<util::Optional<int64_t>>`. -/
def ColumnTypeTraits_Optional_bool : ColumnTypeTraitsMembers :=
  { ColumnTypeTraits_Optional_int64_t with
    cluster_leaf_type := some .ArrayBoolNull
    id := some .type_Bool
    column_id := some .col_type_Bool }

/-- The specialisation `ColumnTypeTraits<float>`. -/
def ColumnTypeTraits_float : ColumnTypeTraitsMembers where
  column_type := some .FloatColumn
  leaf_type := some (.BasicArray .float)
  cluster_leaf_type := some (.BasicArray .float)
  sum_type := some .double
  minmax_type := some .float
  id := some .type_Float
  column_id := some .col_type_Float
  real_column_type := some .col_type_Float

/-- The specialisation `ColumnTypeTraits<double>`. -/
def ColumnTypeTraits_double : ColumnTypeTraitsMembers where
  column_type := some .DoubleColumn
  leaf_type := some (.BasicArray .double)
  cluster_leaf_type := some (.BasicArray .double)
  sum_type := some .double
  minmax_type := some .double
  id := some .type_Double
  column_id := some .col_type_Double
  real_column_type := some .col_type_Double

/-- The specialisation `ColumnTypeTraits<Timestamp>`. -/
def ColumnTypeTraits_Timestamp : ColumnTypeTraitsMembers where
  column_type := none
  leaf_type := none
  cluster_leaf_type := some .ArrayTimestamp
  sum_type := none
  minmax_type := none
  id := some .type_Timestamp
  column_id := some .col_type_Timestamp
  real_column_type := none

/-- The specialisation `ColumnTypeTraits<OldDateTime> : ColumnTypeTraits<int64_t>`. -/
def ColumnTypeTraits_OldDateTime : ColumnTypeTraitsMembers :=
  { ColumnTypeTraits_int64_t with
    id := some .type_OldDateTime
    column_id := some .col_type_OldDateTime }

/-- The specialisation
`ColumnTypeTraits<util::Optional<OldDateTime>> : ColumnTypeTraits<util::Optional<int64_t>>`. -/
def ColumnTypeTraits_Optional_OldDateTime : ColumnTypeTraitsMembers :=
  { ColumnTypeTraits_Optional_int64_t with
    id := some .type_OldDateTime
    column_id := some .col_type_OldDateTime }

/-- The specialisation `ColumnTypeTraits<StringData>`. -/
def ColumnTypeTraits_StringData : ColumnTypeTraitsMembers where
  column_type := none
  leaf_type := none
  cluster_leaf_type := some .ArrayString
  sum_type := none
  minmax_type := none
  id := some .type_String
  column_id := some .col_type_String
  real_column_type := none

/-- The specialisation `ColumnTypeTraits<BinaryData>`. -/
def ColumnTypeTraits_BinaryData : ColumnTypeTraitsMembers where
  column_type := some .BinaryColumn
  leaf_type := some .ArraySmallBlobs
  cluster_leaf_type := some .ArrayBinary
  sum_type := none
  minmax_type := none
  id := some .type_Binary
  column_id := some .col_type_Binary
  real_column_type := some .col_type_Binary

/-- The template `template <class T> struct ColumnTypeTraits`: the primary template is
declared and never defined, so a type without a specialisation has no traits
(`none`). -/
def ColumnTypeTraits : CppType → Option ColumnTypeTraitsMembers
  | .int64_t => some ColumnTypeTraits_int64_t
  | .Optional .int64_t => some ColumnTypeTraits_Optional_int64_t
  | .bool => some ColumnTypeTraits_bool
  | .Key => some ColumnTypeTraits_Key
  | .Optional .bool => some ColumnTypeTraits_Optional_bool
  | .float => some ColumnTypeTraits_float
  | .double => some ColumnTypeTraits_double
  | .Timestamp => some ColumnTypeTraits_Timestamp
  | .OldDateTime => some ColumnTypeTraits_OldDateTime
  | .Optional .OldDateTime => some ColumnTypeTraits_Optional_OldDateTime
  | .StringData => some ColumnTypeTraits_StringData
  | .BinaryData => some ColumnTypeTraits_BinaryData
  | _ => none

/-- The member `M` of `ColumnTypeTraits<T>`, `none` when `ColumnTypeTraits<T>` is not
defined or does not have the member. -/
def ColumnTypeTraits.member {β : Type} (M : ColumnTypeTraitsMembers → Option β)
    (T : CppType) : Option β :=
  (ColumnTypeTraits T).bind M

/-! ## `GetColumnType` -/

/-- The member `type` of `template <DataType, bool Nullable> struct GetColumnType`: declared
for `type_Int` (by nullability), `type_Float` and `type_Double` (for both
values of the flag); the primary template is not defined. -/
def GetColumnType : DataType → Bool → Option CppType
  | .type_Int, false => some .IntegerColumn
  | .type_Int, true => some .IntNullColumn
  | .type_Float, _ => some .FloatColumn
  | .type_Double, _ => some .DoubleColumn
  | _, _ => none

/-! ## `ColumnTypeTraitsSum` -/

/-- The member `sum_type` of `template <class T, Action A> struct ColumnTypeTraitsSum`: `T` in
the primary template, `double` for `float, act_Sum`, and `int64_t` for
`util::Optional<int64_t>` with every action. -/
def ColumnTypeTraitsSum (T : CppType) (A : Action) : CppType :=
  match T, A with
  | .float, .act_Sum => .double
  | .Optional .int64_t, _ => .int64_t
  | T, _ => T

end realm

namespace realm

/-! ## Sort descriptors and the row-index view base (`views.hpp`) -/

/-- Modelled from the spec: `class ColumnBase` is declared in `realm/column.hpp`, which is
not among the sources. A column a sort chain can name is either an orderable
leaf column, holding one integer per row, or a to-one link column, holding for
each row the row index of its target in the next table, or no target (a null
link). -/
inductive ColumnBase where
  | leaf (values : List Int)
  | link (targets : List (Option Nat))
  deriving DecidableEq, Repr

/-- The class `SortDescriptor`: the resolved column chains (`m_columns`; a chain is
a sequence of columns, all but the last being link columns) and the parallel
list of ascending flags (`m_ascending`). -/
structure SortDescriptor where
  m_columns : List (List ColumnBase)
  m_ascending : List Bool
  deriving DecidableEq, Repr

/-- The default constructor `SortDescriptor() = default`: both vectors are empty. -/
def SortDescriptor.default : SortDescriptor where
  m_columns := []
  m_ascending := []

/-- The conversion `explicit operator bool() const noexcept`: whether the descriptor is
valid and can be used to sort, `!m_columns.empty()`. -/
def SortDescriptor.operator_bool (d : SortDescriptor) : Bool :=
  !d.m_columns.isEmpty

/-- The member `bool has_custom_order() const noexcept`:
whether any entry of `m_ascending` is false (`std::any_of` with the predicate `!b`). -/
def SortDescriptor.has_custom_order (d : SortDescriptor) : Bool :=
  d.m_ascending.any (fun b => !b)

/-- The alias `typedef SortDescriptor DistinctDescriptor`. -/
abbrev DistinctDescriptor := SortDescriptor

/-- Modelled from the spec: the value a chain reaches from a row ("follows the to-one link
for each intermediate element before comparing the leaf value at the final
element"). `none` is the sentinel of a null or absent link; a chain that is
empty or has a leaf column before its end reaches nothing either (such chains
are refused at construction). -/
def chain_value : List ColumnBase → Nat → Option Int
  | [], _ => none
  | [.leaf values], row => values[row]?
  | .leaf _ :: _ :: _, _ => none
  | .link targets :: rest, row =>
    match targets[row]? with
    | some (some target) => chain_value rest target
    | _ => none

/-- Modelled from the spec: the comparison of two chain values. The spec leaves the place of
the null sentinel to the implementer; here it is the minimal value (before
every integer, equal to itself). -/
def compare_values : Option Int → Option Int → Ordering
  | none, none => .eq
  | none, some _ => .lt
  | some _, none => .gt
  | some a, some b => if a < b then .lt else if b < a then .gt else .eq

/-- The chains of a descriptor, each with its direction: the flag list is "either
empty (all ascending) or exactly one flag per chain", so a chain without a flag
is ascending. -/
def SortDescriptor.chains (d : SortDescriptor) : List (List ColumnBase × Bool) :=
  d.m_columns.enum.map (fun p => (p.2, d.m_ascending.getD p.1 true))

/-- Modelled from the spec: the strict order of a multi-key sort over chains with directions:
the first chain on which the two rows differ decides, in the direction of that
chain; rows equal on every chain are not ordered. -/
def sorter_less : List (List ColumnBase × Bool) → Nat → Nat → Bool
  | [], _, _ => false
  | (chain, ascending) :: rest, i, j =>
    match compare_values (chain_value chain i) (chain_value chain j) with
    | .lt => ascending
    | .gt => !ascending
    | .eq => sorter_less rest i j

/-- Whether two rows have the same composite key: the same value on every chain. -/
def same_key (chains : List (List ColumnBase × Bool)) (i j : Nat) : Bool :=
  chains.all (fun c => chain_value c.1 i == chain_value c.1 j)

/-- Insertion of a row into a sequence, after the rows that are strictly before it
and before every other row. -/
def stable_insert (less : Nat → Nat → Bool) (a : Nat) : List Nat → List Nat
  | [] => [a]
  | b :: l => if less b a then b :: stable_insert less a l else a :: b :: l

/-- A stable sort by a strict order: every row is inserted in front of the sorted
rows that followed it. -/
def stable_sort (less : Nat → Nat → Bool) : List Nat → List Nat
  | [] => []
  | a :: l => stable_insert less a (stable_sort less l)

/-- Modelled from the spec: a sort stage, "a stable multi-key sort" of the row-index sequence
by the chains of the descriptor. -/
def sort_stage (d : SortDescriptor) (rows : List Nat) : List Nat :=
  stable_sort (sorter_less d.chains) rows

/-- The rows of a sequence whose composite key is not among `seen` and not carried by
an earlier row of the sequence. -/
def distinct_from (chains : List (List ColumnBase × Bool)) : List Nat → List Nat → List Nat
  | _, [] => []
  | seen, r :: rows =>
    if seen.any (fun s => same_key chains s r) then distinct_from chains seen rows
    else r :: distinct_from chains (r :: seen) rows

/-- Modelled from the spec: a distinct stage, which "deduplicates rows whose composite key
(across its chains) is equal, keeping the first occurrence in the current
sequence and dropping the rest". -/
def distinct_stage (d : DistinctDescriptor) (rows : List Nat) : List Nat :=
  distinct_from d.chains [] rows

/-- Modelled from the spec: a stage of a `DescriptorOrdering`, "tagged as either a sort stage or
a distinct stage" (`emplace_sort`, `emplace_distinct`, `descriptor_is_sort` and
`descriptor_is_distinct` are declared in `views.hpp` and defined elsewhere). -/
inductive Descriptor where
  | sort (d : SortDescriptor)
  | distinct (d : DistinctDescriptor)
  deriving DecidableEq, Repr

/-- The class `DescriptorOrdering`: the sequence of stages `m_descriptors`. -/
structure DescriptorOrdering where
  m_descriptors : List Descriptor
  deriving DecidableEq, Repr

/-- The member `bool is_empty() const`. -/
def DescriptorOrdering.is_empty (o : DescriptorOrdering) : Bool :=
  o.m_descriptors.isEmpty

/-- The member `size_t size() const`. -/
def DescriptorOrdering.size (o : DescriptorOrdering) : Nat :=
  o.m_descriptors.length

/-- The class `RowIndexes`: the materialised row-index sequence `m_row_indexes`. The
detached sentinel `detached_ref` is not a row index and is not modelled. -/
structure RowIndexes where
  m_row_indexes : List Nat
  deriving DecidableEq, Repr

/-- The member `virtual bool is_in_sync() const`, as `RowIndexes` defines it. -/
def RowIndexes.is_in_sync (_v : RowIndexes) : Bool :=
  true

/-- A call of the const member `is_in_sync()` in state-passing form: the value returned and
the view after the call. The member is `const` and its body is `return true;`, so
the view after the call is the view before it. -/
def RowIndexes.is_in_sync_call (v : RowIndexes) : Bool × RowIndexes :=
  (v.is_in_sync, v)

/-- One stage applied to a row-index sequence. -/
def apply_descriptor : Descriptor → List Nat → List Nat
  | .sort d, rows => sort_stage d rows
  | .distinct d, rows => distinct_stage d rows

/-- Modelled from the spec: `void RowIndexes::do_sort(const DescriptorOrdering& ordering)` is
declared in `views.hpp` and defined elsewhere. It "applies a DescriptorOrdering to
the current row-index sequence in place"; the stages "apply strictly left to
right". -/
def RowIndexes.do_sort (v : RowIndexes) (ordering : DescriptorOrdering) : RowIndexes :=
  { v with m_row_indexes :=
      ordering.m_descriptors.foldl (fun rows s => apply_descriptor s rows) v.m_row_indexes }

end realm

namespace tightdb

/-! ## The table accessor (`table.hpp`) -/

/-- Modelled from the spec: `class Array` is declared in `tightdb/array.hpp`, which is not among
the sources. Of an array accessor the table accessor uses whether it is attached
to storage (`m_data` is not null), its parent link (`m_parent`, a pointer to an
`ArrayParent`, null when there is none) and its index in that parent. -/
structure Array where
  m_data : Option Nat
  m_parent : Option Nat
  m_ndx_in_parent : Nat
  deriving DecidableEq, Repr

/-- Modelled from the spec: `Array::is_attached()`, whether the accessor is attached to storage. -/
def Array.is_attached (a : Array) : Bool :=
  a.m_data.isSome

/-- Modelled from the spec: `Array::has_parent()`, whether the accessor stores a non-null parent
pointer. -/
def Array.has_parent (a : Array) : Bool :=
  a.m_parent.isSome

/-- Modelled from the spec: `Array::get_parent()`. -/
def Array.get_parent (a : Array) : Option Nat :=
  a.m_parent

/-- Modelled from the spec: `Array::get_ndx_in_parent()`. -/
def Array.get_ndx_in_parent (a : Array) : Nat :=
  a.m_ndx_in_parent

/-- A cell value of the dynamically typed table. Booleans, datetimes and
enumerations are stored as integers (`insert_bool`, `insert_datetime` and
`insert_enum` call `insert_int`). -/
inductive Value where
  | int (v : Int)
  | string (s : String)
  deriving DecidableEq, Repr

/-- Modelled from the spec: `class Spec` is declared in `tightdb/spec.hpp`, which is not among the
sources. A spec is the "ordered sequence of" column definitions of a table, here
the type and the name of each column; two specs compare equal (`Spec::operator==`)
when they are the same sequence. -/
abbrev Spec := List (realm.ColumnType × String)

/-- The class `Table`: the number of rows `m_size`, the array accessors `m_top` and
`m_columns`, the column accessors `m_cols` (each one with the cells of its
column, in row order), the reference count `m_ref_count` and the registered
views `m_views` (a view is named by a number); further the spec `m_spec`, the
registered row accessors `m_row_accessors` (named by numbers) and the descriptor
accessor `m_descriptor` (null when there is none), which start out empty the
way the constructors leave them. -/
structure Table where
  m_size : Nat
  m_top : Array
  m_columns : Array
  m_cols : List (List Value)
  m_ref_count : Nat
  m_views : List Nat
  m_spec : Spec := []
  m_row_accessors : List Nat := []
  m_descriptor : Option Nat := none
  deriving DecidableEq, Repr

/-- The invariant "row count equals every column's element count". -/
def Table.wf (t : Table) : Prop :=
  ∀ col ∈ t.m_cols, col.length = t.m_size

instance (t : Table) : Decidable t.wf := by
  unfold Table.wf
  infer_instance

/-- The member `bool Table::is_attached() const`: `return m_columns.has_parent();`. -/
def Table.is_attached (t : Table) : Bool :=
  t.m_columns.has_parent

/-- The member `bool Table::has_shared_type() const`: `return !m_top.is_attached();`. -/
def Table.has_shared_type (t : Table) : Bool :=
  !t.m_top.is_attached

/-- The member `bool Table::is_degenerate() const`: `return !m_columns.is_attached();`. -/
def Table.is_degenerate (t : Table) : Bool :=
  !t.m_columns.is_attached

/-- The member `bool Table::is_empty() const`: `return m_size == 0;`. -/
def Table.is_empty (t : Table) : Bool :=
  t.m_size == 0

/-- The member `std::size_t Table::size() const`: `return m_size;`. -/
def Table.size (t : Table) : Nat :=
  t.m_size

/-- The cell at a column and row index, when there is one. -/
def Table.get_cell (t : Table) (column_ndx row_ndx : Nat) : Option Value :=
  (t.m_cols[column_ndx]?).bind (fun col => col[row_ndx]?)

/-- Modelled from the spec: `Table::get_int` is declared in `table.hpp` and defined elsewhere. It
is the integer in the cell; the call is outside its contract when there is no
such cell or the cell is no integer, and 0 stands for the result then. -/
def Table.get_int (t : Table) (column_ndx row_ndx : Nat) : Int :=
  match t.get_cell column_ndx row_ndx with
  | some (.int v) => v
  | _ => 0

/-- Modelled from the spec: `Table::detach_views_except` is declared in `table.hpp` and defined
elsewhere. It detaches every registered view other than `view` (a null pointer,
`none`, excepts no view); a detached view is no longer registered. -/
def Table.detach_views_except (t : Table) (view : Option Nat) : Table :=
  { t with m_views := t.m_views.filter (fun v => some v == view) }

/-- Modelled from the spec: `Table::do_remove` is declared in `table.hpp` and defined elsewhere.
It "deletes one row and shifts subsequent row indices down by one", in every
column. -/
def Table.do_remove (t : Table) (row_ndx : Nat) : Table :=
  { t with
    m_cols := t.m_cols.map (fun col => col.eraseIdx row_ndx)
    m_size := t.m_size - 1 }

/-- The member `void Table::remove(std::size_t row_ndx)`:
`detach_views_except(0); do_remove(row_ndx);`. -/
def Table.remove (t : Table) (row_ndx : Nat) : Table :=
  (t.detach_views_except none).do_remove row_ndx

/-- The member `void Table::from_view_remove(std::size_t row_ndx, TableViewBase* view)`:
`detach_views_except(view); do_remove(row_ndx);`. -/
def Table.from_view_remove (t : Table) (row_ndx : Nat) (view : Option Nat) : Table :=
  (t.detach_views_except view).do_remove row_ndx

/-- The member `void Table::remove_last()`: `if (!is_empty()) remove(size()-1);`. -/
def Table.remove_last (t : Table) : Table :=
  if !t.is_empty then t.remove (t.size - 1) else t

/-- The move of the last cell of a column over the cell at `target_row_ndx`: the target
cell is overwritten with the last one, and the last one is removed. -/
def column_move_last_over (col : List Value) (target_row_ndx last_row_ndx : Nat) : List Value :=
  match col[last_row_ndx]? with
  | some v => (col.set target_row_ndx v).eraseIdx last_row_ndx
  | none => col

/-- Modelled from the spec: `Table::move_last_over` is declared in `table.hpp` and defined
elsewhere. It is "a specialized O(1) delete that overwrites the target row with
the table's last row and shrinks by one"; like the plain delete it invalidates
the registered views. -/
def Table.move_last_over (t : Table) (target_row_ndx : Nat) : Table :=
  let last_row_ndx := t.m_size - 1
  let t1 := t.detach_views_except none
  { t1 with
    m_cols := t1.m_cols.map (fun col => column_move_last_over col target_row_ndx last_row_ndx)
    m_size := t1.m_size - 1 }

/-- The loop of a binary search for a bound in the rows `first .. first + count`:
`step` is half of `count`; when the row in the middle is before the bound
(`before_bound` holds of its value) the search goes on behind it, otherwise in
front of it. The loop ends when `count` is 0; `fuel` bounds the number of turns. -/
def bound_loop (before_bound : Int → Bool) (get : Nat → Int) : Nat → Nat → Nat → Nat
  | 0, first, _ => first
  | fuel + 1, first, count =>
    if count = 0 then first
    else
      let step := count / 2
      let mid := first + step
      if before_bound (get mid) then
        bound_loop before_bound get fuel (mid + 1) (count - (step + 1))
      else
        bound_loop before_bound get fuel first step

/-- Modelled from the spec: `Table::lower_bound_int` is declared in `table.hpp` and defined
elsewhere. Its "binary-search semantics [are] identical to a standard
sorted-range search" (`std::lower_bound`) over the rows of the column: a row is
before the bound when its value is less than `value`. -/
def Table.lower_bound_int (t : Table) (column_ndx : Nat) (value : Int) : Nat :=
  bound_loop (fun x => x < value) (fun row => t.get_int column_ndx row) t.m_size 0 t.m_size

/-- Modelled from the spec: `Table::upper_bound_int` is declared in `table.hpp` and defined
elsewhere. It is the standard sorted-range search `std::upper_bound` over the
rows of the column: a row is before the bound when its value is not greater
than `value`. -/
def Table.upper_bound_int (t : Table) (column_ndx : Nat) (value : Int) : Nat :=
  bound_loop (fun x => !(value < x)) (fun row => t.get_int column_ndx row) t.m_size 0 t.m_size

/-- The column at `column_ndx` is sorted in ascending order: `get_int` does not decrease with
the row index. -/
def Table.sorted_ascending (t : Table) (column_ndx : Nat) : Prop :=
  ∀ j, j < t.m_size → ∀ i, i ≤ j → t.get_int column_ndx i ≤ t.get_int column_ndx j

instance (t : Table) (column_ndx : Nat) : Decidable (t.sorted_ascending column_ndx) := by
  unfold Table.sorted_ascending
  infer_instance

/-- A table accessor of a freestanding table with one integer column. -/
def int_table (values : List Int) : Table where
  m_size := values.length
  m_top := { m_data := some 1, m_parent := none, m_ndx_in_parent := 0 }
  m_columns := { m_data := some 2, m_parent := some 0, m_ndx_in_parent := 1 }
  m_cols := [values.map Value.int]
  m_ref_count := 1
  m_views := []

/-- The member `StringData Table::get_name() const`, under its assertion `is_attached()`: the
real top array is `m_top` when that is attached and `m_columns` otherwise;
without a parent the name is the empty `StringData()`, otherwise it is what the
parent answers to `get_child_name` for the index of the real top array in it.
`Table::Parent::get_child_name` is virtual and defined elsewhere: it is the
argument `get_child_name`, from the parent and the child index to the name. -/
def Table.get_name (get_child_name : Nat → Nat → String) (t : Table) : String :=
  let real_top := if t.m_top.is_attached then t.m_top else t.m_columns
  match real_top.get_parent with
  | none => ""
  | some parent => get_child_name parent real_top.get_ndx_in_parent

/-- The member `std::size_t Table::add_empty_row(std::size_t num_rows)`:
`row_ndx = m_size; insert_empty_row(row_ndx, num_rows); return row_ndx;`. The member
`insert_empty_row` is declared in `table.hpp` and defined elsewhere: it is the
argument `insert_empty_row`, which gives the table after the insertion or
nothing when it throws. The result is the table after the call and the value
returned. -/
def Table.add_empty_row (insert_empty_row : Table → Nat → Nat → Option Table) (t : Table)
    (num_rows : Nat) : Option (Table × Nat) :=
  let row_ndx := t.m_size
  (insert_empty_row t row_ndx num_rows).bind (fun t1 => some (t1, row_ndx))

/-- The member `bool Table::operator==(const Table& t) const`:
`return m_spec == t.m_spec && compare_rows(t);`. The member `compare_rows` is declared
in `table.hpp` and defined elsewhere: it is the argument `compare_rows`, which
gives its answer or nothing when it throws. The operator `&&` evaluates its
right operand only when the left one is true. -/
def Table.operator_eq (compare_rows : Table → Table → Option Bool) (a t : Table) :
    Option Bool :=
  if a.m_spec == t.m_spec then compare_rows a t else some false

/-- The member `bool Table::operator!=(const Table& t) const`: `return !(*this == t);`. -/
def Table.operator_ne (compare_rows : Table → Table → Option Bool) (a t : Table) :
    Option Bool :=
  (a.operator_eq compare_rows t).map (fun r => !r)

/-- Modelled from the spec: `Array::detach()`, after which the accessor is not attached to
storage. -/
def Array.detach (a : Array) : Array :=
  { a with m_data := none }

/-- Modelled from the spec: `Array::set_parent(parent, ndx_in_parent)`, the "parent-link set" of
the storage interface. -/
def Array.set_parent (a : Array) (parent : Option Nat) (ndx_in_parent : Nat) : Array :=
  { a with m_parent := parent, m_ndx_in_parent := ndx_in_parent }

/-- Modelled from the spec: `Table::discard_row_accessors` is declared in `table.hpp` and defined
elsewhere; it discards "every row ... accessor reference". -/
def Table.discard_row_accessors (t : Table) : Table :=
  { t with m_row_accessors := [] }

/-- Modelled from the spec: `Table::discard_desc_accessor` is declared in `table.hpp` and defined
elsewhere; it detaches "the type descriptor accessor if it exists", after which
the table refers to none. -/
def Table.discard_desc_accessor (t : Table) : Table :=
  { t with m_descriptor := none }

/-- Modelled from the spec: `Table::destroy_column_accessors` is declared in `table.hpp` and
defined elsewhere; after it the table has no column accessor. -/
def Table.destroy_column_accessors (t : Table) : Table :=
  { t with m_cols := [] }

/-- Modelled from the spec: what `Table::detach()` does to the members of the accessor it is
called on. It "detaches it from the underlying structure of array nodes", it
detaches the descriptor accessor, it "discards every row/view accessor
reference", and it clears the parent link of `m_columns`, so that "when this
function returns, is_attached() will return false". -/
def Table.detach_members (t : Table) : Table :=
  let t1 := t.discard_desc_accessor
  let t2 := { t1 with
    m_top := t1.m_top.detach
    m_columns := (t1.m_columns.detach).set_parent none 0 }
  let t3 := t2.discard_row_accessors
  let t4 := t3.detach_views_except none
  t4.destroy_column_accessors

/-- A table accessor with the subtable accessors that are registered beneath it (the
accessors of the subtables in its cells, each one with those beneath it). -/
inductive TableAccessor where
  | mk (table : Table) (subtables : List TableAccessor)

/-- The table accessor itself. -/
def TableAccessor.table : TableAccessor → Table
  | .mk table _ => table

/-- The subtable accessors registered directly beneath the accessor. -/
def TableAccessor.subtables : TableAccessor → List TableAccessor
  | .mk _ subtables => subtables

mutual

/-- Modelled from the spec: `Table::detach` is declared in `table.hpp` and defined elsewhere. It
"puts this table accessor into the detached state" and "recursively detaches
accessors for subtables". The result is the accessor after the call, with no
subtable accessor registered beneath it, and the accessors that were beneath it,
at every depth, each one as its own `detach()` leaves it. -/
def TableAccessor.detach : TableAccessor → TableAccessor × List Table
  | .mk table subtables =>
    (.mk table.detach_members [], discard_subtable_accessors subtables)

/-- Modelled from the spec: `Table::discard_subtable_accessors` is declared in `table.hpp` and
defined elsewhere; it does "detach and remove all attached subtable accessors".
The result is the detached accessors, those beneath them included. -/
def discard_subtable_accessors : List TableAccessor → List Table
  | [] => []
  | subtable :: rest =>
    ((subtable.detach).1.table :: (subtable.detach).2) ++ discard_subtable_accessors rest

end

mutual

/-- The table accessors beneath an accessor, at every depth. -/
def TableAccessor.descendants : TableAccessor → List Table
  | .mk _ subtables => descendants_of subtables

/-- The table accessors of a list of accessors, each one followed by those beneath it. -/
def descendants_of : List TableAccessor → List Table
  | [] => []
  | subtable :: rest =>
    (subtable.table :: subtable.descendants) ++ descendants_of rest

end

end tightdb

namespace tightdb

/-! ## Link types, reference counting, construction, typed column access -/

/-- The member `static bool Table::is_link_type(DataType type)`:
`return type == type_Link || type == type_LinkList;`. -/
def Table.is_link_type (type : realm.DataType) : Bool :=
  type == .type_Link || type == .type_LinkList

/-- The number of values of `std::size_t`, the type of `m_ref_count`: its arithmetic is modulo
this number. The width is that of a 64-bit platform. -/
def size_t_modulus : Nat :=
  2 ^ 64

/-- The member `void Table::bind_ref() const`: `++m_ref_count;`. -/
def Table.bind_ref (t : Table) : Table :=
  { t with m_ref_count := (t.m_ref_count + 1) % size_t_modulus }

/-- The member `void Table::unbind_ref() const`: `if (--m_ref_count == 0) delete this;`. The
result is the accessor with the count after the decrement and whether
`delete this` is executed, which destroys the accessor. -/
def Table.unbind_ref (t : Table) : Table × Bool :=
  let count := (t.m_ref_count + size_t_modulus - 1) % size_t_modulus
  ({ t with m_ref_count := count }, count == 0)

/-- Modelled from the spec: what the storage holds for a table at a ref: its spec, the ref of its
columns array, the cells of its columns and its number of rows. -/
structure StoredTable where
  spec : Spec
  columns_ref : Nat
  columns : List (List Value)
  size : Nat
  deriving DecidableEq, Repr

/-- Modelled from the spec: `Table::init_from_ref(top_ref, parent, ndx_in_parent)` is declared in
`table.hpp` and defined elsewhere. The accessor is "attached at construction to a
given storage location": `m_top` is attached to the top array and gets the
parent link, `m_columns` is attached to the columns array with the top array as
its parent (the second slot), and the spec, the column accessors and the size
are those of the stored table. -/
def Table.init_from_ref (t : Table) (stored : Nat → StoredTable) (top_ref : Nat)
    (parent : Option Nat) (ndx_in_parent : Nat) : Table :=
  { t with
    m_top := { m_data := some top_ref, m_parent := parent, m_ndx_in_parent := ndx_in_parent }
    m_columns :=
      { m_data := some (stored top_ref).columns_ref, m_parent := some top_ref,
        m_ndx_in_parent := 1 }
    m_spec := (stored top_ref).spec
    m_cols := (stored top_ref).columns
    m_size := (stored top_ref).size }

/-- Modelled from the spec: `Table::init_from_ref(shared_spec, columns_ref, parent, ndx_in_parent)`
is declared in `table.hpp` and defined elsewhere. A subtable with shared spec has
no top array; `m_columns` gets the parent link, also for a degenerate subtable
(`columns_ref` is zero), which is left without storage and without column
accessors. -/
def Table.init_from_ref_shared (t : Table) (stored_columns : Nat → List (List Value) × Nat)
    (shared_spec : Spec) (columns_ref : Nat) (parent : Option Nat) (ndx_in_parent : Nat) :
    Table :=
  if columns_ref = 0 then
    { t with
      m_columns := { m_data := none, m_parent := parent, m_ndx_in_parent := ndx_in_parent }
      m_spec := shared_spec }
  else
    { t with
      m_columns :=
        { m_data := some columns_ref, m_parent := parent, m_ndx_in_parent := ndx_in_parent }
      m_spec := shared_spec
      m_cols := (stored_columns columns_ref).1
      m_size := (stored_columns columns_ref).2 }

/-- The members as the initialiser list of a constructor leaves them:
`m_size(0), m_top(alloc), m_columns(alloc), m_spec(alloc), m_ref_count(...),
m_search_index(0), m_descriptor(0)`, with the arrays not attached and without
parent, and the given initial reference count. -/
def Table.initial (ref_count : Nat) : Table where
  m_size := 0
  m_top := { m_data := none, m_parent := none, m_ndx_in_parent := 0 }
  m_columns := { m_data := none, m_parent := none, m_ndx_in_parent := 0 }
  m_cols := []
  m_ref_count := ref_count
  m_views := []
  m_spec := []
  m_row_accessors := []
  m_descriptor := none

/-- The constructor `Table::Table(Allocator& alloc)` of a freestanding table on the stack:
`m_ref_count(1)`, then `init_from_ref(ref, null_ptr, 0)` where `ref` is what
`create_empty_table(alloc)` returned. -/
def Table.construct (stored : Nat → StoredTable) (ref : Nat) : Table :=
  (Table.initial 1).init_from_ref stored ref none 0

/-- The constructor `Table::Table(const Table& t, Allocator& alloc)` of a freestanding copy on
the stack: `m_ref_count(1)`, then `init_from_ref(ref, null_ptr, 0)` where `ref` is
what `t.clone(alloc)` returned. -/
def Table.construct_copy (stored : Nat → StoredTable) (clone_ref : Nat) : Table :=
  (Table.initial 1).init_from_ref stored clone_ref none 0

/-- The constructor `Table::Table(ref_count_tag, Allocator&, ref_type top_ref, Parent*,
std::size_t ndx_in_parent)` of an accessor with independent spec whose lifetime is
managed by reference counting: `m_ref_count(0)`, then
`init_from_ref(top_ref, parent, ndx_in_parent)`. -/
def Table.construct_ref_counted (stored : Nat → StoredTable) (top_ref : Nat)
    (parent : Option Nat) (ndx_in_parent : Nat) : Table :=
  (Table.initial 0).init_from_ref stored top_ref parent ndx_in_parent

/-- The constructor `Table::Table(ref_count_tag, ConstSubspecRef shared_spec, ref_type
columns_ref, Parent*, std::size_t ndx_in_parent)` of a subtable accessor with shared
spec whose lifetime is managed by reference counting: `m_ref_count(0)`, then
`init_from_ref(shared_spec, columns_ref, parent, ndx_in_parent)`. -/
def Table.construct_ref_counted_shared (stored_columns : Nat → List (List Value) × Nat)
    (shared_spec : Spec) (columns_ref : Nat) (parent : Option Nat) (ndx_in_parent : Nat) :
    Table :=
  (Table.initial 0).init_from_ref_shared stored_columns shared_spec columns_ref parent
    ndx_in_parent

/-- The member template `template <class C, ColumnType coltype> C& Table::get_column(std::size_t ndx)`:
`column = get_column_base(ndx)`; when `TIGHTDB_DEBUG` is defined,
`validate_column_type(column, coltype, ndx)`; then `return static_cast<C&>(column)`.
The members `get_column_base` and `validate_column_type` are declared in `table.hpp`
and defined elsewhere: they are arguments, the second one telling whether the
check passes. The result is the column, or nothing when the check fails. -/
def Table.get_column {C : Type} (TIGHTDB_DEBUG : Bool) (get_column_base : Table → Nat → C)
    (validate_column_type : C → realm.ColumnType → Nat → Bool) (t : Table)
    (coltype : realm.ColumnType) (ndx : Nat) : Option C :=
  let column := get_column_base t ndx
  if TIGHTDB_DEBUG then
    if validate_column_type column coltype ndx then some column else none
  else some column

/-- The const overload `template <class C, ColumnType coltype> const C& Table::get_column(std::size_t
ndx) const`, with the same body on the const `get_column_base`. -/
def Table.get_column_const {C : Type} (TIGHTDB_DEBUG : Bool)
    (get_column_base : Table → Nat → C)
    (validate_column_type : C → realm.ColumnType → Nat → Bool) (t : Table)
    (coltype : realm.ColumnType) (ndx : Nat) : Option C :=
  let column := get_column_base t ndx
  if TIGHTDB_DEBUG then
    if validate_column_type column coltype ndx then some column else none
  else some column

/-- The members `insert_subtable`, `insert_mixed_subtable`, `set_subtable` and
`set_mixed_subtable` that take a table pointer; they are declared in `table.hpp` and
defined elsewhere. Each one is a function of the table it is called on, the
column and row index and the table pointed to (null, `none`, stands for an empty
table), into its effect, of a type `R` left open. -/
structure SubtableMembers (R : Type) where
  insert_subtable : Table → Nat → Nat → Option Table → R
  insert_mixed_subtable : Table → Nat → Nat → Option Table → R
  set_subtable : Table → Nat → Nat → Option Table → R
  set_mixed_subtable : Table → Nat → Nat → Option Table → R

/-- The member `void Table::insert_into(Table* parent, std::size_t col_ndx, std::size_t row_ndx) const`:
`parent->insert_subtable(col_ndx, row_ndx, this);`. -/
def Table.insert_into {R : Type} (members : SubtableMembers R) (t parent : Table)
    (col_ndx row_ndx : Nat) : R :=
  members.insert_subtable parent col_ndx row_ndx (some t)

/-- The member `void Table::set_into_mixed(Table* parent, std::size_t col_ndx, std::size_t row_ndx)
const`: `parent->insert_mixed_subtable(col_ndx, row_ndx, this);`. -/
def Table.set_into_mixed {R : Type} (members : SubtableMembers R) (t parent : Table)
    (col_ndx row_ndx : Nat) : R :=
  members.insert_mixed_subtable parent col_ndx row_ndx (some t)

end tightdb

/-! # Properties -/

namespace tightdb

/-- C1: `Table::is_attached()` is true exactly when `m_columns` stores a non-null parent
link, and it is the same whatever `m_top` is and whatever storage `m_columns` is
or is not attached to. -/
theorem C1_is_attached_iff_parent_link (t : Table) :
    (t.is_attached = true ↔ t.m_columns.m_parent ≠ none) ∧
    (∀ (top : Array) (data : Option Nat),
      ({ t with m_top := top, m_columns := { t.m_columns with m_data := data } } : Table).is_attached
        = t.is_attached) := by
  refine ⟨?_, fun _ _ => rfl⟩
  cases h : t.m_columns.m_parent <;> simp [Table.is_attached, Array.has_parent, h]

end tightdb

namespace realm

/-- The types `ColumnTypeTraits` is specialised for. -/
theorem ColumnTypeTraits_isSome {T : CppType} {m : ColumnTypeTraitsMembers}
    (h : ColumnTypeTraits T = some m) :
    T ∈ [CppType.int64_t, .Optional .int64_t, .bool, .Key, .Optional .bool, .float, .double,
      .Timestamp, .OldDateTime, .Optional .OldDateTime, .StringData, .BinaryData] := by
  cases T with
  | Optional T' => cases T' <;> simp_all [ColumnTypeTraits]
  | _ => simp_all [ColumnTypeTraits]

/-- C2: the sum over a `float` column has the result type `double` in each of the three
lookups (`AggregateResultType<float, act_Sum>::result_type`,
`ColumnTypeTraits<float>::sum_type`, `ColumnTypeTraitsSum<float, act_Sum>::sum_type`),
and the minimum and maximum of `float` stay `float`. -/
theorem C2_float_sum_is_double :
    AggregateResultType .float .act_Sum = .double ∧
    ColumnTypeTraits.member (fun m => m.sum_type) .float = some .double ∧
    ColumnTypeTraitsSum .float .act_Sum = .double ∧
    ColumnTypeTraits.member (fun m => m.minmax_type) .float = some .float ∧
    AggregateResultType .float .act_Min = .float ∧
    AggregateResultType .float .act_Max = .float ∧
    ColumnTypeTraitsSum .float .act_Min = .float ∧
    ColumnTypeTraitsSum .float .act_Max = .float := by
  decide

/-- C3: for every aggregate action the result type of a nullable integer column is
`int64_t`, in `AggregateResultType` and in `ColumnTypeTraitsSum`, and
`ColumnTypeTraits<util::Optional<int64_t>>` has `int64_t` as `sum_type` and as
`minmax_type`. -/
theorem C3_nullable_int_result_is_int64 (A : Action) :
    AggregateResultType (.Optional .int64_t) A = .int64_t ∧
    ColumnTypeTraitsSum (.Optional .int64_t) A = .int64_t ∧
    ColumnTypeTraits.member (fun m => m.sum_type) (.Optional .int64_t) = some .int64_t ∧
    ColumnTypeTraits.member (fun m => m.minmax_type) (.Optional .int64_t) = some .int64_t := by
  refine ⟨?_, ?_, by decide, by decide⟩ <;> cases A <;> rfl

/-- C4, as stated, fails: `ColumnTypeTraits<bool>` defines `sum_type` and `minmax_type`, `bool`
is neither `float` nor the nullable integer, and both members are `int64_t`, not
`bool`. -/
theorem C4_counterexample_bool :
    ¬ (∀ (T s m : CppType),
        ColumnTypeTraits.member (fun x => x.sum_type) T = some s →
        ColumnTypeTraits.member (fun x => x.minmax_type) T = some m →
        T ≠ .float → T ≠ .Optional .int64_t → s = T ∧ m = T) := by
  intro h
  have := h .bool .int64_t .int64_t (by decide) (by decide) (by decide) (by decide)
  exact absurd this.1 (by decide)

/-- C4, amended: for a type `T` other than `float` and the nullable integer for which
`ColumnTypeTraits<T>` defines `sum_type` and `minmax_type`, the two members are
the same type; it is `T` for `int64_t` and `double`, and it is `int64_t` for the
types whose traits derive from the integer traits (`bool`, `OldDateTime` and
their nullable variants), which are the only other such types. -/
theorem C4_sum_minmax_closed_or_integer (T s m : CppType)
    (hs : ColumnTypeTraits.member (fun x => x.sum_type) T = some s)
    (hm : ColumnTypeTraits.member (fun x => x.minmax_type) T = some m)
    (hf : T ≠ .float) (hn : T ≠ .Optional .int64_t) :
    s = m ∧
    ((T = .int64_t ∨ T = .double) → s = T) ∧
    (¬ (T = .int64_t ∨ T = .double) →
      s = .int64_t ∧
      (T = .bool ∨ T = .OldDateTime ∨ T = .Optional .bool ∨ T = .Optional .OldDateTime)) := by
  cases hT : ColumnTypeTraits T with
  | none => simp [ColumnTypeTraits.member, hT] at hs
  | some tr =>
    have hmem := ColumnTypeTraits_isSome hT
    simp only [List.mem_cons, List.mem_singleton, List.mem_nil_iff, or_false] at hmem
    rcases hmem with h | h | h | h | h | h | h | h | h | h | h | h <;> subst h <;>
      simp_all [ColumnTypeTraits.member, ColumnTypeTraits, ColumnTypeTraits_int64_t,
        ColumnTypeTraits_Optional_int64_t, ColumnTypeTraits_bool, ColumnTypeTraits_Key,
        ColumnTypeTraits_Optional_bool, ColumnTypeTraits_double, ColumnTypeTraits_Timestamp,
        ColumnTypeTraits_OldDateTime, ColumnTypeTraits_Optional_OldDateTime,
        ColumnTypeTraits_StringData, ColumnTypeTraits_BinaryData]

/-- C4, amended, at `bool`: the hypotheses hold there and both members are `int64_t`. -/
theorem C4_sum_minmax_closed_or_integer_witness :
    ColumnTypeTraits.member (fun x => x.sum_type) .bool = some .int64_t ∧
    ColumnTypeTraits.member (fun x => x.minmax_type) .bool = some .int64_t ∧
    (CppType.int64_t = CppType.int64_t ∧
      ((CppType.bool = .int64_t ∨ CppType.bool = .double) → CppType.int64_t = .bool) ∧
      (¬ (CppType.bool = .int64_t ∨ CppType.bool = .double) →
        CppType.int64_t = .int64_t ∧
        (CppType.bool = .bool ∨ CppType.bool = .OldDateTime ∨ CppType.bool = .Optional .bool ∨
          CppType.bool = .Optional .OldDateTime))) :=
  ⟨by decide, by decide,
    C4_sum_minmax_closed_or_integer .bool .int64_t .int64_t (by decide) (by decide)
      (by decide) (by decide)⟩

/-- C5, as stated, fails at the integer: the nullable variant has another `column_type`
(`Column<util::Optional<int64_t>>`, not `Column<int64_t>`) and the same identity
tag `id` (`type_Int`). -/
theorem C5_counterexample_int :
    ColumnTypeTraits.member (fun x => x.column_type) (.Optional .int64_t)
      = some (.Column (.Optional .int64_t)) ∧
    ColumnTypeTraits.member (fun x => x.column_type) .int64_t = some (.Column .int64_t) ∧
    ColumnTypeTraits.member (fun x => x.column_type) (.Optional .int64_t)
      ≠ ColumnTypeTraits.member (fun x => x.column_type) .int64_t ∧
    ColumnTypeTraits.member (fun x => x.id) (.Optional .int64_t)
      = ColumnTypeTraits.member (fun x => x.id) .int64_t := by
  decide

/-- C5, amended: each nullable variant (`Optional<int64_t>`, `Optional<bool>`,
`Optional<OldDateTime>`) has the `sum_type`, `minmax_type`, `id`, `column_id` and
`real_column_type` of its non-nullable tag, all of them defined, and differs from
it in `column_type` (`Column<util::Optional<int64_t>>` instead of `Column<int64_t>`) and
in `leaf_type`. -/
theorem C5_nullable_variant_traits :
    ∀ T ∈ [CppType.int64_t, .bool, .OldDateTime],
      (ColumnTypeTraits.member (fun x => x.sum_type) (.Optional T)).isSome = true ∧
      ColumnTypeTraits.member (fun x => x.sum_type) (.Optional T)
        = ColumnTypeTraits.member (fun x => x.sum_type) T ∧
      (ColumnTypeTraits.member (fun x => x.minmax_type) (.Optional T)).isSome = true ∧
      ColumnTypeTraits.member (fun x => x.minmax_type) (.Optional T)
        = ColumnTypeTraits.member (fun x => x.minmax_type) T ∧
      (ColumnTypeTraits.member (fun x => x.id) (.Optional T)).isSome = true ∧
      ColumnTypeTraits.member (fun x => x.id) (.Optional T)
        = ColumnTypeTraits.member (fun x => x.id) T ∧
      (ColumnTypeTraits.member (fun x => x.column_id) (.Optional T)).isSome = true ∧
      ColumnTypeTraits.member (fun x => x.column_id) (.Optional T)
        = ColumnTypeTraits.member (fun x => x.column_id) T ∧
      (ColumnTypeTraits.member (fun x => x.real_column_type) (.Optional T)).isSome = true ∧
      ColumnTypeTraits.member (fun x => x.real_column_type) (.Optional T)
        = ColumnTypeTraits.member (fun x => x.real_column_type) T ∧
      ColumnTypeTraits.member (fun x => x.column_type) (.Optional T)
        ≠ ColumnTypeTraits.member (fun x => x.column_type) T ∧
      ColumnTypeTraits.member (fun x => x.leaf_type) (.Optional T)
        ≠ ColumnTypeTraits.member (fun x => x.leaf_type) T ∧
      ColumnTypeTraits.member (fun x => x.column_type) (.Optional T)
        = some (.Column (.Optional .int64_t)) ∧
      ColumnTypeTraits.member (fun x => x.column_type) T = some (.Column .int64_t) := by
  decide

/-- C5, amended, at the integer: the nullable integer has the `sum_type` and the `id` of
`int64_t` and another `leaf_type`. -/
theorem C5_nullable_variant_traits_witness :
    CppType.int64_t ∈ [CppType.int64_t, .bool, .OldDateTime] ∧
    ColumnTypeTraits.member (fun x => x.sum_type) (.Optional .int64_t)
      = ColumnTypeTraits.member (fun x => x.sum_type) .int64_t ∧
    ColumnTypeTraits.member (fun x => x.id) (.Optional .int64_t)
      = ColumnTypeTraits.member (fun x => x.id) .int64_t ∧
    ColumnTypeTraits.member (fun x => x.leaf_type) (.Optional .int64_t)
      ≠ ColumnTypeTraits.member (fun x => x.leaf_type) .int64_t :=
  ⟨by decide,
    (C5_nullable_variant_traits .int64_t (by decide)).2.1,
    (C5_nullable_variant_traits .int64_t (by decide)).2.2.2.2.2.1,
    (C5_nullable_variant_traits .int64_t (by decide)).2.2.2.2.2.2.2.2.2.2.2.1⟩

/-- C6, as stated, fails at the string: `ColumnTypeTraits<StringData>` declares none of
`column_type`, `leaf_type`, `sum_type` and `minmax_type`. -/
theorem C6_counterexample_string :
    (ColumnTypeTraits .StringData).isSome = true ∧
    ColumnTypeTraits.member (fun x => x.column_type) .StringData = none ∧
    ColumnTypeTraits.member (fun x => x.leaf_type) .StringData = none ∧
    ColumnTypeTraits.member (fun x => x.sum_type) .StringData = none ∧
    ColumnTypeTraits.member (fun x => x.minmax_type) .StringData = none := by
  decide

/-- C6, amended: `ColumnTypeTraits` is defined for every value type the registry must
support; it yields all four of `column_type`, `leaf_type`, `sum_type` and
`minmax_type` for the integer and the boolean (nullable and non-nullable), for
`float`, for `double` and for the legacy datetime; for binary data it yields
`column_type` and `leaf_type` and neither `sum_type` nor `minmax_type`; for
string, timestamp and link it yields none of the four: their traits have
`cluster_leaf_type`, `id` and `column_id` and no other member. -/
theorem C6_traits_members_by_type :
    (∀ T ∈ [CppType.int64_t, .Optional .int64_t, .bool, .Optional .bool, .float, .double,
        .StringData, .BinaryData, .Timestamp, .Key, .OldDateTime],
      (ColumnTypeTraits T).isSome = true) ∧
    (∀ T ∈ [CppType.int64_t, .Optional .int64_t, .bool, .Optional .bool, .float, .double,
        .OldDateTime],
      (ColumnTypeTraits.member (fun x => x.column_type) T).isSome = true ∧
      (ColumnTypeTraits.member (fun x => x.leaf_type) T).isSome = true ∧
      (ColumnTypeTraits.member (fun x => x.sum_type) T).isSome = true ∧
      (ColumnTypeTraits.member (fun x => x.minmax_type) T).isSome = true) ∧
    ((ColumnTypeTraits.member (fun x => x.column_type) .BinaryData).isSome = true ∧
      (ColumnTypeTraits.member (fun x => x.leaf_type) .BinaryData).isSome = true ∧
      ColumnTypeTraits.member (fun x => x.sum_type) .BinaryData = none ∧
      ColumnTypeTraits.member (fun x => x.minmax_type) .BinaryData = none) ∧
    (∀ T ∈ [CppType.StringData, .Timestamp, .Key],
      ColumnTypeTraits.member (fun x => x.column_type) T = none ∧
      ColumnTypeTraits.member (fun x => x.leaf_type) T = none ∧
      ColumnTypeTraits.member (fun x => x.sum_type) T = none ∧
      ColumnTypeTraits.member (fun x => x.minmax_type) T = none) ∧
    (∀ T ∈ [CppType.StringData, .Timestamp, .Key],
      (ColumnTypeTraits.member (fun x => x.cluster_leaf_type) T).isSome = true ∧
      (ColumnTypeTraits.member (fun x => x.id) T).isSome = true ∧
      (ColumnTypeTraits.member (fun x => x.column_id) T).isSome = true ∧
      ColumnTypeTraits.member (fun x => x.real_column_type) T = none) ∧
    ColumnTypeTraits .StringData = some
      { column_type := none, leaf_type := none, cluster_leaf_type := some .ArrayString,
        sum_type := none, minmax_type := none, id := some .type_String,
        column_id := some .col_type_String, real_column_type := none } ∧
    ColumnTypeTraits .Timestamp = some
      { column_type := none, leaf_type := none, cluster_leaf_type := some .ArrayTimestamp,
        sum_type := none, minmax_type := none, id := some .type_Timestamp,
        column_id := some .col_type_Timestamp, real_column_type := none } ∧
    ColumnTypeTraits .Key = some
      { column_type := none, leaf_type := none, cluster_leaf_type := some .ArrayKey,
        sum_type := none, minmax_type := none, id := some .type_Link,
        column_id := some .col_type_Link, real_column_type := none } := by
  decide

/-- C7: `ColumnTypeTraits<bool>` and `ColumnTypeTraits<OldDateTime>` have the `column_type`,
`leaf_type`, `sum_type`, `minmax_type` and `real_column_type` of
`ColumnTypeTraits<int64_t>`; they override `id` (`type_Bool`, `type_OldDateTime`) and
`column_id` (`col_type_Bool`, `col_type_OldDateTime`); `bool` overrides
`cluster_leaf_type` (`ArrayBool`) too, and `OldDateTime` keeps that of the integer. -/
theorem C7_bool_and_datetime_derive_from_int :
    (∀ T ∈ [CppType.bool, .OldDateTime],
      ColumnTypeTraits.member (fun x => x.column_type) T
        = ColumnTypeTraits.member (fun x => x.column_type) .int64_t ∧
      ColumnTypeTraits.member (fun x => x.leaf_type) T
        = ColumnTypeTraits.member (fun x => x.leaf_type) .int64_t ∧
      ColumnTypeTraits.member (fun x => x.sum_type) T
        = ColumnTypeTraits.member (fun x => x.sum_type) .int64_t ∧
      ColumnTypeTraits.member (fun x => x.minmax_type) T
        = ColumnTypeTraits.member (fun x => x.minmax_type) .int64_t ∧
      ColumnTypeTraits.member (fun x => x.real_column_type) T
        = ColumnTypeTraits.member (fun x => x.real_column_type) .int64_t) ∧
    (ColumnTypeTraits.member (fun x => x.column_type) .int64_t = some (.Column .int64_t) ∧
      ColumnTypeTraits.member (fun x => x.leaf_type) .int64_t = some .ArrayInteger ∧
      ColumnTypeTraits.member (fun x => x.sum_type) .int64_t = some .int64_t ∧
      ColumnTypeTraits.member (fun x => x.minmax_type) .int64_t = some .int64_t ∧
      ColumnTypeTraits.member (fun x => x.real_column_type) .int64_t = some .col_type_Int ∧
      ColumnTypeTraits.member (fun x => x.id) .int64_t = some .type_Int ∧
      ColumnTypeTraits.member (fun x => x.column_id) .int64_t = some .col_type_Int ∧
      ColumnTypeTraits.member (fun x => x.cluster_leaf_type) .int64_t = some .ArrayInteger) ∧
    (ColumnTypeTraits.member (fun x => x.id) .bool = some .type_Bool ∧
      ColumnTypeTraits.member (fun x => x.column_id) .bool = some .col_type_Bool ∧
      ColumnTypeTraits.member (fun x => x.cluster_leaf_type) .bool = some .ArrayBool) ∧
    (ColumnTypeTraits.member (fun x => x.id) .OldDateTime = some .type_OldDateTime ∧
      ColumnTypeTraits.member (fun x => x.column_id) .OldDateTime = some .col_type_OldDateTime ∧
      ColumnTypeTraits.member (fun x => x.cluster_leaf_type) .OldDateTime
        = ColumnTypeTraits.member (fun x => x.cluster_leaf_type) .int64_t) := by
  decide

end realm

namespace tightdb

/-- The binary search loop on a range that `before_bound` partitions: it returns the end of
the rows that are before the bound. -/
theorem bound_loop_spec (p : Int → Bool) (get : Nat → Int) (n : Nat)
    (hmono : ∀ j, j < n → ∀ i, i ≤ j → p (get j) = true → p (get i) = true) :
    ∀ (fuel first count : Nat), count ≤ fuel → first + count ≤ n →
      (∀ i, i < first → p (get i) = true) →
      (∀ i, first + count ≤ i → i < n → p (get i) = false) →
      (∀ i, i < bound_loop p get fuel first count → p (get i) = true) ∧
      (∀ i, bound_loop p get fuel first count ≤ i → i < n → p (get i) = false) ∧
      bound_loop p get fuel first count ≤ n := by
  intro fuel
  induction fuel with
  | zero =>
    intro first count hc hn hlo hhi
    have hc0 : count = 0 := by omega
    subst hc0
    simp only [bound_loop]
    exact ⟨hlo, fun i hi hin => hhi i (by omega) hin, by omega⟩
  | succ fuel ih =>
    intro first count hc hn hlo hhi
    by_cases hc0 : count = 0
    · subst hc0
      simp only [bound_loop, if_true]
      exact ⟨hlo, fun i hi hin => hhi i (by omega) hin, by omega⟩
    · have hstep : count / 2 < count := Nat.div_lt_self (by omega) (by decide)
      have hmid : first + count / 2 < n := by omega
      simp only [bound_loop, hc0, if_false]
      by_cases hp : p (get (first + count / 2)) = true
      · simp only [hp, if_true]
        apply ih
        · omega
        · omega
        · intro i hi
          exact hmono (first + count / 2) hmid i (by omega) hp
        · intro i hi hin
          exact hhi i (by omega) hin
      · simp only [hp]
        apply ih
        · omega
        · omega
        · exact hlo
        · intro i hi hin
          cases hpi : p (get i) with
          | false => rfl
          | true => exact absurd (hmono i hin (first + count / 2) hi hpi) hp

/-- C8: on an integer column sorted ascending, `lower_bound_int` is the first row whose value
is not less than the target and `upper_bound_int` the first row whose value is
greater than it, and each is the number of rows when there is no such row; on
the column 3 3 3 4 4 4 5 6 7 9 9 9 the bounds of 4 are 3 and 6, those of 8 are 9
and 9, and those of 15 are 12 and 12. -/
theorem C8_bounds_on_sorted_column :
    (∀ (t : Table) (column_ndx : Nat) (value : Int), t.sorted_ascending column_ndx →
      ((∀ i, i < t.lower_bound_int column_ndx value → t.get_int column_ndx i < value) ∧
        (t.lower_bound_int column_ndx value < t.size →
          value ≤ t.get_int column_ndx (t.lower_bound_int column_ndx value)) ∧
        t.lower_bound_int column_ndx value ≤ t.size ∧
        ((∀ i, i < t.size → t.get_int column_ndx i < value) →
          t.lower_bound_int column_ndx value = t.size)) ∧
      ((∀ i, i < t.upper_bound_int column_ndx value → t.get_int column_ndx i ≤ value) ∧
        (t.upper_bound_int column_ndx value < t.size →
          value < t.get_int column_ndx (t.upper_bound_int column_ndx value)) ∧
        t.upper_bound_int column_ndx value ≤ t.size ∧
        ((∀ i, i < t.size → t.get_int column_ndx i ≤ value) →
          t.upper_bound_int column_ndx value = t.size))) ∧
    ((int_table [3, 3, 3, 4, 4, 4, 5, 6, 7, 9, 9, 9]).lower_bound_int 0 4 = 3 ∧
      (int_table [3, 3, 3, 4, 4, 4, 5, 6, 7, 9, 9, 9]).upper_bound_int 0 4 = 6 ∧
      (int_table [3, 3, 3, 4, 4, 4, 5, 6, 7, 9, 9, 9]).lower_bound_int 0 8 = 9 ∧
      (int_table [3, 3, 3, 4, 4, 4, 5, 6, 7, 9, 9, 9]).upper_bound_int 0 8 = 9 ∧
      (int_table [3, 3, 3, 4, 4, 4, 5, 6, 7, 9, 9, 9]).lower_bound_int 0 15 = 12 ∧
      (int_table [3, 3, 3, 4, 4, 4, 5, 6, 7, 9, 9, 9]).upper_bound_int 0 15 = 12 ∧
      (int_table [3, 3, 3, 4, 4, 4, 5, 6, 7, 9, 9, 9]).size = 12) := by
  refine ⟨?_, by decide⟩
  intro t c v hsorted
  constructor
  · have h := bound_loop_spec (fun x => decide (x < v)) (fun row => t.get_int c row) t.m_size
      (by
        intro j hj i hij hpj
        have := hsorted j hj i hij
        simp only [decide_eq_true_eq] at hpj ⊢
        omega)
      t.m_size 0 t.m_size (Nat.le_refl _) (by omega) (by intro i hi; omega)
      (by intro i hi hin; omega)
    obtain ⟨hlo, hhi, hle⟩ := h
    simp only [decide_eq_true_eq, decide_eq_false_iff_not, not_lt] at hlo hhi
    refine ⟨hlo, fun hl => hhi _ (Nat.le_refl _) hl, hle, fun hall => ?_⟩
    by_contra hne
    have hl : t.lower_bound_int c v < t.size := lt_of_le_of_ne hle hne
    have h1 : v ≤ t.get_int c (t.lower_bound_int c v) := hhi _ (Nat.le_refl _) hl
    have h2 : t.get_int c (t.lower_bound_int c v) < v := hall _ hl
    omega
  · have h := bound_loop_spec (fun x => !decide (v < x)) (fun row => t.get_int c row) t.m_size
      (by
        intro j hj i hij hpj
        have := hsorted j hj i hij
        simp only [Bool.not_eq_true', decide_eq_false_iff_not, not_lt] at hpj ⊢
        omega)
      t.m_size 0 t.m_size (Nat.le_refl _) (by omega) (by intro i hi; omega)
      (by intro i hi hin; omega)
    obtain ⟨hlo, hhi, hle⟩ := h
    simp only [Bool.not_eq_true', Bool.not_eq_false', decide_eq_false_iff_not, not_lt,
      decide_eq_true_eq] at hlo hhi
    refine ⟨hlo, fun hl => hhi _ (Nat.le_refl _) hl, hle, fun hall => ?_⟩
    by_contra hne
    have hl : t.upper_bound_int c v < t.size := lt_of_le_of_ne hle hne
    have h1 : v < t.get_int c (t.upper_bound_int c v) := hhi _ (Nat.le_refl _) hl
    have h2 : t.get_int c (t.upper_bound_int c v) ≤ v := hall _ hl
    omega

/-- C8 at the column 3 3 3 4 4 4 5 6 7 9 9 9 and the target 4: the column is sorted, row 3 is
the first one not less than 4 and row 6 the first one greater than 4. -/
theorem C8_bounds_on_sorted_column_witness :
    (int_table [3, 3, 3, 4, 4, 4, 5, 6, 7, 9, 9, 9]).sorted_ascending 0 ∧
    (∀ i, i < (int_table [3, 3, 3, 4, 4, 4, 5, 6, 7, 9, 9, 9]).lower_bound_int 0 4 →
      (int_table [3, 3, 3, 4, 4, 4, 5, 6, 7, 9, 9, 9]).get_int 0 i < 4) ∧
    (∀ i, i < (int_table [3, 3, 3, 4, 4, 4, 5, 6, 7, 9, 9, 9]).upper_bound_int 0 4 →
      (int_table [3, 3, 3, 4, 4, 4, 5, 6, 7, 9, 9, 9]).get_int 0 i ≤ 4) :=
  ⟨by decide,
    ((C8_bounds_on_sorted_column.1 (int_table [3, 3, 3, 4, 4, 4, 5, 6, 7, 9, 9, 9]) 0 4
      (by decide)).1).1,
    ((C8_bounds_on_sorted_column.1 (int_table [3, 3, 3, 4, 4, 4, 5, 6, 7, 9, 9, 9]) 0 4
      (by decide)).2).1⟩

end tightdb

namespace tightdb

/-- Overwriting a cell with its own value leaves the column as it is. -/
theorem set_self_of_getElem? (col : List Value) (k : Nat) (v : Value) (h : col[k]? = some v) :
    col.set k v = col := by
  apply List.ext_getElem?
  intro j
  rw [List.getElem?_set]
  by_cases hkj : k = j
  · subst hkj
    have hlt : k < col.length := by
      by_contra hge
      rw [List.getElem?_eq_none (by omega)] at h
      exact Option.noConfusion h
    simp [hlt, h]
  · simp [hkj]

/-- The move of the last cell over the last cell removes it. -/
theorem column_move_last_over_last (col : List Value) (last : Nat) :
    column_move_last_over col last last = col.eraseIdx last := by
  unfold column_move_last_over
  cases h : col[last]? with
  | none =>
    have hge : col.length ≤ last := by
      by_contra hlt
      rw [List.getElem?_eq_getElem (by omega)] at h
      exact Option.noConfusion h
    simp only
    exact (List.eraseIdx_of_length_le hge).symm
  | some v => simp only [set_self_of_getElem? col last v h]

/-- The cells of a column after the move of its last cell over a target cell. -/
theorem column_move_last_over_spec (col : List Value) (n i : Nat) (hlen : col.length = n)
    (hi : i < n) :
    (column_move_last_over col i (n - 1)).length = n - 1 ∧
    (i < n - 1 → (column_move_last_over col i (n - 1))[i]? = col[n - 1]?) ∧
    (∀ j, j ≠ i → j < n - 1 → (column_move_last_over col i (n - 1))[j]? = col[j]?) := by
  have hlast : n - 1 < col.length := by omega
  have hget : col[n - 1]? = some col[n - 1] := List.getElem?_eq_getElem hlast
  unfold column_move_last_over
  simp only [hget]
  refine ⟨?_, ?_, ?_⟩
  · rw [List.length_eraseIdx]
    simp only [List.length_set]
    rw [if_pos hlast]
    omega
  · intro hin
    rw [List.getElem?_eraseIdx_of_lt _ _ _ hin, List.getElem?_set]
    simp [show i < col.length by omega]
  · intro j hji hj
    rw [List.getElem?_eraseIdx_of_lt _ _ _ hj, List.getElem?_set_ne (Ne.symm hji)]

/-- C9: on a table of `n` rows, `n` at least 1, and for a row `i` below `n`, `move_last_over(i)`
leaves a table of `n - 1` rows (every column with it); row `i`, when it is a row of
the result (`i` below `n - 1`), holds in every column the value row `n - 1` held;
every other row of the result is unchanged; and when `i` is `n - 1` the resulting
table is that of `remove(n - 1)`. -/
theorem C9_move_last_over (t : Table) (i : Nat) (hwf : t.wf) (_hn : 1 ≤ t.size)
    (hi : i < t.size) :
    (t.move_last_over i).size = t.size - 1 ∧
    (t.move_last_over i).wf ∧
    (i < t.size - 1 →
      ∀ c, (t.move_last_over i).get_cell c i = t.get_cell c (t.size - 1)) ∧
    (∀ j, j ≠ i → j < t.size - 1 →
      ∀ c, (t.move_last_over i).get_cell c j = t.get_cell c j) ∧
    (i = t.size - 1 → t.move_last_over i = t.remove (t.size - 1)) := by
  have hcols : (t.move_last_over i).m_cols
      = t.m_cols.map (fun col => column_move_last_over col i (t.m_size - 1)) := rfl
  have hcell : ∀ c r, (t.move_last_over i).get_cell c r
      = (t.m_cols[c]?).bind (fun col => (column_move_last_over col i (t.m_size - 1))[r]?) := by
    intro c r
    simp only [Table.get_cell, hcols, List.getElem?_map]
    cases t.m_cols[c]? <;> rfl
  refine ⟨rfl, ?_, ?_, ?_, ?_⟩
  · intro col hcol
    rw [hcols, List.mem_map] at hcol
    obtain ⟨col0, hmem, rfl⟩ := hcol
    exact (column_move_last_over_spec col0 t.m_size i (hwf col0 hmem) hi).1
  · intro hin c
    rw [hcell]
    simp only [Table.get_cell, Table.size]
    cases hc : t.m_cols[c]? with
    | none => rfl
    | some col =>
      have hmem : col ∈ t.m_cols := List.getElem?_mem hc
      exact (column_move_last_over_spec col t.m_size i (hwf col hmem) hi).2.1 hin
  · intro j hji hj c
    rw [hcell]
    simp only [Table.get_cell]
    cases hc : t.m_cols[c]? with
    | none => rfl
    | some col =>
      have hmem : col ∈ t.m_cols := List.getElem?_mem hc
      exact (column_move_last_over_spec col t.m_size i (hwf col hmem) hi).2.2 j hji hj
  · intro hlast
    subst hlast
    simp only [Table.move_last_over, Table.remove, Table.do_remove, Table.detach_views_except,
      Table.size, column_move_last_over_last]

/-- C9 on the table with the one column 1 2 3 4, for the row 1: the result has the column
1 4 3. -/
theorem C9_move_last_over_witness :
    (int_table [1, 2, 3, 4]).wf ∧ 1 ≤ (int_table [1, 2, 3, 4]).size ∧
    1 < (int_table [1, 2, 3, 4]).size ∧
    ((int_table [1, 2, 3, 4]).move_last_over 1).size = 3 ∧
    ((int_table [1, 2, 3, 4]).move_last_over 1).m_cols = [[.int 1, .int 4, .int 3]] :=
  ⟨by decide, by decide, by decide,
    (C9_move_last_over (int_table [1, 2, 3, 4]) 1 (by decide) (by decide) (by decide)).1,
    by decide⟩

end tightdb

namespace realm

/-- The comparison of chain values is reflexive. -/
theorem compare_values_self (a : Option Int) : compare_values a a = .eq := by
  cases a <;> simp [compare_values]

/-- Chain values that compare equal are equal. -/
theorem compare_values_eq {a b : Option Int} (h : compare_values a b = .eq) : a = b := by
  cases a <;> cases b <;> simp only [compare_values] at h <;> try contradiction
  · rfl
  · rename_i x y
    split_ifs at h with h1 h2
    congr
    omega

/-- The comparison of chain values is oriented. -/
theorem compare_values_lt_iff_gt (a b : Option Int) :
    compare_values a b = .lt ↔ compare_values b a = .gt := by
  cases a <;> cases b <;> simp only [compare_values] <;> try decide
  rename_i x y
  constructor <;> intro h <;> split_ifs at h ⊢ <;> first | rfl | omega

/-- The strict comparison of chain values is transitive. -/
theorem compare_values_lt_trans {a b c : Option Int} (h1 : compare_values a b = .lt)
    (h2 : compare_values b c = .lt) : compare_values a c = .lt := by
  cases a <;> cases b <;> cases c <;> simp only [compare_values] at h1 h2 ⊢ <;>
    try contradiction
  rename_i x y z
  split_ifs at h1 h2 ⊢ <;> first | rfl | omega

/-- Rows with the same composite key are not ordered by the sorter. -/
theorem sorter_less_of_same_key (chains : List (List ColumnBase × Bool)) (i j : Nat)
    (h : same_key chains i j = true) : sorter_less chains i j = false := by
  induction chains with
  | nil => rfl
  | cons c rest ih =>
    obtain ⟨chain, ascending⟩ := c
    simp only [same_key, List.all_cons, Bool.and_eq_true, beq_iff_eq] at h
    simp only [sorter_less, h.1, compare_values_self]
    exact ih h.2

/-- Having the same composite key is symmetric. -/
theorem same_key_symm (chains : List (List ColumnBase × Bool)) (i j : Nat)
    (h : same_key chains i j = true) : same_key chains j i = true := by
  simp only [same_key, List.all_eq_true, beq_iff_eq] at h ⊢
  intro c hc
  exact (h c hc).symm

/-- Having the same composite key is transitive. -/
theorem same_key_trans (chains : List (List ColumnBase × Bool)) (i j k : Nat)
    (h1 : same_key chains i j = true) (h2 : same_key chains j k = true) :
    same_key chains i k = true := by
  simp only [same_key, List.all_eq_true, beq_iff_eq] at h1 h2 ⊢
  intro c hc
  exact (h1 c hc).trans (h2 c hc)

/-- The sorter skips the chains on which two rows have the same value. -/
theorem sorter_less_append (pre rest : List (List ColumnBase × Bool)) (i j : Nat)
    (h : same_key pre i j = true) : sorter_less (pre ++ rest) i j = sorter_less rest i j := by
  induction pre with
  | nil => rfl
  | cons c pre ih =>
    obtain ⟨chain, ascending⟩ := c
    simp only [same_key, List.all_cons, Bool.and_eq_true, beq_iff_eq] at h
    simp only [List.cons_append, sorter_less, h.1, compare_values_self]
    exact ih h.2

/-- The sorter is asymmetric. -/
theorem sorter_less_asymm (chains : List (List ColumnBase × Bool)) (i j : Nat)
    (h : sorter_less chains i j = true) : sorter_less chains j i = false := by
  induction chains with
  | nil => simp [sorter_less] at h
  | cons c rest ih =>
    obtain ⟨chain, ascending⟩ := c
    simp only [sorter_less] at h ⊢
    cases hij : compare_values (chain_value chain i) (chain_value chain j) with
    | lt =>
      rw [hij] at h
      rw [(compare_values_lt_iff_gt _ _).1 hij]
      simpa using h
    | eq =>
      rw [hij] at h
      rw [← compare_values_eq hij, compare_values_self]
      exact ih h
    | gt =>
      rw [hij] at h
      rw [(compare_values_lt_iff_gt _ _).2 hij]
      simpa using h

/-- Not being behind is transitive: when `b` is not before `a` and `c` is not before `b`, `c` is not
before `a`. -/
theorem sorter_le_trans (chains : List (List ColumnBase × Bool)) (a b c : Nat)
    (hab : sorter_less chains b a = false) (hbc : sorter_less chains c b = false) :
    sorter_less chains c a = false := by
  induction chains with
  | nil => rfl
  | cons ch rest ih =>
    obtain ⟨chain, ascending⟩ := ch
    simp only [sorter_less] at hab hbc ⊢
    cases hba : compare_values (chain_value chain b) (chain_value chain a) with
    | eq =>
      rw [hba] at hab
      rw [← compare_values_eq hba]
      cases hcb : compare_values (chain_value chain c) (chain_value chain b) with
      | eq =>
        rw [hcb] at hbc
        exact ih hab hbc
      | lt => rw [hcb] at hbc; exact hbc
      | gt => rw [hcb] at hbc; exact hbc
    | lt =>
      rw [hba] at hab
      cases hcb : compare_values (chain_value chain c) (chain_value chain b) with
      | eq =>
        rw [compare_values_eq hcb, hba]
        exact hab
      | lt =>
        rw [compare_values_lt_trans hcb hba]
        exact hab
      | gt =>
        rw [hcb] at hbc
        simp only at hab hbc
        rw [hab] at hbc
        exact absurd hbc (by decide)
    | gt =>
      rw [hba] at hab
      cases hcb : compare_values (chain_value chain c) (chain_value chain b) with
      | eq =>
        rw [compare_values_eq hcb, hba]
        exact hab
      | lt =>
        rw [hcb] at hbc
        simp only at hab hbc
        rw [hbc] at hab
        exact absurd hab (by decide)
      | gt =>
        have h1 := (compare_values_lt_iff_gt _ _).2 hba
        have h2 := (compare_values_lt_iff_gt _ _).2 hcb
        rw [(compare_values_lt_iff_gt _ _).1 (compare_values_lt_trans h1 h2)]
        exact hab

/-- The insertion keeps the rows. -/
theorem stable_insert_perm (less : Nat → Nat → Bool) (a : Nat) (l : List Nat) :
    (stable_insert less a l).Perm (a :: l) := by
  induction l with
  | nil => exact List.Perm.refl _
  | cons b l ih =>
    simp only [stable_insert]
    split_ifs
    · exact (List.Perm.cons b ih).trans (List.Perm.swap a b l)
    · exact List.Perm.refl _

/-- The stable sort keeps the rows. -/
theorem stable_sort_perm (less : Nat → Nat → Bool) (l : List Nat) :
    (stable_sort less l).Perm l := by
  induction l with
  | nil => exact List.Perm.refl _
  | cons a l ih =>
    simp only [stable_sort]
    exact (stable_insert_perm less a _).trans (List.Perm.cons a ih)

/-- The insertion into an ordered sequence gives an ordered sequence. -/
theorem stable_insert_sorted (chains : List (List ColumnBase × Bool)) (a : Nat) (l : List Nat)
    (h : l.Pairwise (fun x y => sorter_less chains y x = false)) :
    (stable_insert (sorter_less chains) a l).Pairwise
      (fun x y => sorter_less chains y x = false) := by
  induction l with
  | nil => simp [stable_insert]
  | cons b l ih =>
    rw [List.pairwise_cons] at h
    simp only [stable_insert]
    split_ifs with hba
    · rw [List.pairwise_cons]
      refine ⟨?_, ih h.2⟩
      intro y hy
      rcases (stable_insert_perm _ a l).mem_iff.1 hy with hmem
      rw [List.mem_cons] at hmem
      rcases hmem with rfl | hmem
      · exact sorter_less_asymm chains b y hba
      · exact h.1 y hmem
    · have hba' : sorter_less chains b a = false := by simpa using hba
      rw [List.pairwise_cons]
      refine ⟨?_, List.pairwise_cons.2 h⟩
      intro y hy
      rw [List.mem_cons] at hy
      rcases hy with rfl | hy
      · exact hba'
      · exact sorter_le_trans chains a b y hba' (h.1 y hy)

/-- The stable sort gives an ordered sequence: no row is before a row in front of it. -/
theorem stable_sort_sorted (chains : List (List ColumnBase × Bool)) (l : List Nat) :
    (stable_sort (sorter_less chains) l).Pairwise
      (fun x y => sorter_less chains y x = false) := by
  induction l with
  | nil => simp [stable_sort]
  | cons a l ih => exact stable_insert_sorted chains a _ ih

/-- The insertion keeps the sequence of the rows that carry a given composite key. -/
theorem stable_insert_filter (chains : List (List ColumnBase × Bool)) (x a : Nat)
    (l : List Nat) :
    (stable_insert (sorter_less chains) a l).filter (fun r => same_key chains x r)
      = (a :: l).filter (fun r => same_key chains x r) := by
  induction l with
  | nil => rfl
  | cons b l ih =>
    simp only [stable_insert]
    split_ifs with hba
    · have hnot : ¬ (same_key chains x b = true ∧ same_key chains x a = true) := by
        rintro ⟨hb, ha⟩
        have hsame := same_key_trans chains b x a (same_key_symm chains x b hb) ha
        rw [sorter_less_of_same_key chains b a hsame] at hba
        exact absurd hba (by decide)
      rw [List.filter_cons, ih]
      by_cases hb : same_key chains x b = true
      · have ha : same_key chains x a = false := by
          cases h : same_key chains x a with
          | false => rfl
          | true => exact absurd ⟨hb, h⟩ hnot
        simp [List.filter_cons, hb, ha]
      · have hb' : same_key chains x b = false := by simpa using hb
        simp [List.filter_cons, hb']
    · rfl

/-- The stable sort keeps the sequence of the rows that carry a given composite key. -/
theorem stable_sort_filter (chains : List (List ColumnBase × Bool)) (x : Nat) (l : List Nat) :
    (stable_sort (sorter_less chains) l).filter (fun r => same_key chains x r)
      = l.filter (fun r => same_key chains x r) := by
  induction l with
  | nil => rfl
  | cons a l ih =>
    simp only [stable_sort]
    rw [stable_insert_filter, List.filter_cons, List.filter_cons, ih]

/-- A row that is not behind another one is not behind it on the first chain that tells them
apart. -/
theorem chain_order_of_not_less (pre post : List (List ColumnBase × Bool))
    (chain : List ColumnBase) (ascending : Bool) (a b : Nat)
    (h : sorter_less (pre ++ (chain, ascending) :: post) b a = false)
    (hpre : same_key pre a b = true) :
    compare_values (chain_value chain a) (chain_value chain b)
      ≠ (if ascending = true then Ordering.gt else Ordering.lt) := by
  rw [sorter_less_append pre _ b a (same_key_symm pre a b hpre)] at h
  simp only [sorter_less] at h
  intro hcmp
  cases ascending with
  | true =>
    simp only [if_true] at hcmp
    rw [(compare_values_lt_iff_gt _ _).2 hcmp] at h
    simp at h
  | false =>
    simp only [Bool.false_eq_true, if_false] at hcmp
    rw [(compare_values_lt_iff_gt _ _).1 hcmp] at h
    simp at h

/-- C10: a sort stage applied by `do_sort` gives a permutation of the row-index sequence; in
it no row is before a row in front of it; for every chain, two rows that have
the same value on all the chains before it are in the order of that chain (not
descending when the chain is ascending, not ascending when it is descending), so
the first chain orders the rows and each later chain breaks the ties of the ones
before it; and the rows with the same value on all chains keep their incoming
relative order. On the rows (1,2), (1,1), (0,5), two ascending chains give
(0,5), (1,1), (1,2) and a descending first chain gives (1,1), (1,2), (0,5). -/
theorem C10_do_sort_stable_multi_key :
    (∀ (d : SortDescriptor) (rows : List Nat),
      ((RowIndexes.do_sort ⟨rows⟩ ⟨[.sort d]⟩).m_row_indexes).Perm rows ∧
      ((RowIndexes.do_sort ⟨rows⟩ ⟨[.sort d]⟩).m_row_indexes).Pairwise
        (fun a b => sorter_less d.chains b a = false) ∧
      (∀ pre chain ascending post, d.chains = pre ++ (chain, ascending) :: post →
        ((RowIndexes.do_sort ⟨rows⟩ ⟨[.sort d]⟩).m_row_indexes).Pairwise
          (fun a b => same_key pre a b = true →
            compare_values (chain_value chain a) (chain_value chain b)
              ≠ (if ascending = true then Ordering.gt else Ordering.lt))) ∧
      (∀ x, ((RowIndexes.do_sort ⟨rows⟩ ⟨[.sort d]⟩).m_row_indexes).filter
          (fun r => same_key d.chains x r)
        = rows.filter (fun r => same_key d.chains x r))) ∧
    ((RowIndexes.do_sort ⟨[0, 1, 2]⟩
        ⟨[.sort ⟨[[.leaf [1, 1, 0]], [.leaf [2, 1, 5]]], []⟩]⟩).m_row_indexes = [2, 1, 0] ∧
      (RowIndexes.do_sort ⟨[0, 1, 2]⟩
        ⟨[.sort ⟨[[.leaf [1, 1, 0]], [.leaf [2, 1, 5]]], [false, true]⟩]⟩).m_row_indexes
        = [1, 0, 2]) := by
  refine ⟨?_, by decide⟩
  intro d rows
  have hout : (RowIndexes.do_sort ⟨rows⟩ ⟨[.sort d]⟩).m_row_indexes
      = stable_sort (sorter_less d.chains) rows := rfl
  rw [hout]
  refine ⟨stable_sort_perm _ rows, stable_sort_sorted d.chains rows, ?_,
    fun x => stable_sort_filter d.chains x rows⟩
  intro pre chain ascending post hsplit
  refine (stable_sort_sorted d.chains rows).imp ?_
  intro a b hab hpre
  rw [hsplit] at hab
  exact chain_order_of_not_less pre post chain ascending a b hab hpre

/-- C10 on the rows (1,2), (1,1), (0,5) with a descending first chain and an ascending second
one: the result (1,1), (1,2), (0,5) is a permutation of the rows, and the two rows
with the same value on the first chain are in the ascending order of the
second. -/
theorem C10_do_sort_stable_multi_key_witness :
    ((RowIndexes.do_sort ⟨[0, 1, 2]⟩
      ⟨[.sort ⟨[[.leaf [1, 1, 0]], [.leaf [2, 1, 5]]], [false, true]⟩]⟩).m_row_indexes).Perm
      [0, 1, 2] ∧
    (RowIndexes.do_sort ⟨[0, 1, 2]⟩
      ⟨[.sort ⟨[[.leaf [1, 1, 0]], [.leaf [2, 1, 5]]], [false, true]⟩]⟩).m_row_indexes
      = [1, 0, 2] :=
  ⟨(C10_do_sort_stable_multi_key.1 ⟨[[.leaf [1, 1, 0]], [.leaf [2, 1, 5]]], [false, true]⟩
      [0, 1, 2]).1,
    by decide⟩

end realm

namespace realm

/-- The rows a distinct pass keeps for a composite key: none when the key was seen before the
pass, otherwise the first row of the sequence that carries it. -/
theorem distinct_from_filter (chains : List (List ColumnBase × Bool)) (x : Nat) :
    ∀ (rows seen : List Nat),
      (distinct_from chains seen rows).filter (fun r => same_key chains x r)
        = if seen.any (fun s => same_key chains s x) = true then []
          else (rows.find? (fun r => same_key chains x r)).toList := by
  intro rows
  induction rows with
  | nil => intro seen; simp [distinct_from]
  | cons r rows ih =>
    intro seen
    simp only [distinct_from]
    by_cases hseen_r : seen.any (fun s => same_key chains s r) = true
    · rw [if_pos hseen_r, ih seen]
      by_cases hseen_x : seen.any (fun s => same_key chains s x) = true
      · simp only [hseen_x, if_true]
      · simp only [hseen_x, if_false]
        have hxr : same_key chains x r = false := by
          cases h : same_key chains x r with
          | false => rfl
          | true =>
            exfalso
            apply hseen_x
            rw [List.any_eq_true] at hseen_r ⊢
            obtain ⟨s, hs, hsr⟩ := hseen_r
            exact ⟨s, hs, same_key_trans chains s r x hsr (same_key_symm chains x r h)⟩
        simp only [List.find?_cons, hxr]
    · rw [if_neg hseen_r, List.filter_cons, ih (r :: seen)]
      by_cases hxr : same_key chains x r = true
      · have hrx : same_key chains r x = true := same_key_symm chains x r hxr
        have hseen_x : ¬ seen.any (fun s => same_key chains s x) = true := by
          intro h
          apply hseen_r
          rw [List.any_eq_true] at h ⊢
          obtain ⟨s, hs, hsx⟩ := h
          exact ⟨s, hs, same_key_trans chains s x r hsx hxr⟩
        simp [hxr, hrx, hseen_x, List.find?_cons]
      · have hxr' : same_key chains x r = false := by simpa using hxr
        have hrx : same_key chains r x = false := by
          cases h : same_key chains r x with
          | false => rfl
          | true => exact absurd (same_key_symm chains r x h) hxr
        simp only [hxr', Bool.false_eq_true, if_false, List.any_cons, hrx, Bool.false_or,
          List.find?_cons]

/-- The rows a distinct pass keeps are rows of the sequence, in its order. -/
theorem distinct_from_sublist (chains : List (List ColumnBase × Bool)) :
    ∀ (rows seen : List Nat), (distinct_from chains seen rows).Sublist rows := by
  intro rows
  induction rows with
  | nil => intro seen; simp [distinct_from]
  | cons r rows ih =>
    intro seen
    simp only [distinct_from]
    split_ifs
    · exact (ih seen).cons r
    · exact (ih (r :: seen)).cons₂ r

/-- The rows a distinct pass keeps, by position: with `pre` the rows in front of the pass and
`seen` carrying the same composite keys as `pre`, the pass keeps the row at a
position exactly when no row at an earlier position carries its composite key. -/
theorem distinct_from_eq_positions (chains : List (List ColumnBase × Bool)) :
    ∀ (rows pre seen : List Nat),
      (∀ x, seen.any (fun s => same_key chains s x) = pre.any (fun s => same_key chains s x)) →
      distinct_from chains seen rows
        = ((rows.enumFrom pre.length).filter
            (fun p => !((pre ++ rows).take p.1).any (fun s => same_key chains s p.2))).map
            Prod.snd := by
  intro rows
  induction rows with
  | nil => intro pre seen _; simp [distinct_from]
  | cons r rows ih =>
    intro pre seen hinv
    have htake : (pre ++ r :: rows).take pre.length = pre := List.take_left' rfl
    have happ : pre ++ r :: rows = (pre ++ [r]) ++ rows := by simp
    have hlen : (pre ++ [r]).length = pre.length + 1 := by simp
    simp only [distinct_from, List.enumFrom_cons, List.filter_cons, htake]
    rw [← hinv r]
    by_cases hseen : seen.any (fun s => same_key chains s r) = true
    · have hinv' : ∀ x, seen.any (fun s => same_key chains s x)
          = (pre ++ [r]).any (fun s => same_key chains s x) := by
        intro x
        rw [List.any_append, ← hinv x]
        cases hrx : same_key chains r x with
        | false => simp [hrx]
        | true =>
          rw [List.any_eq_true] at hseen
          obtain ⟨s, hs, hsr⟩ := hseen
          have hsx := same_key_trans chains s r x hsr hrx
          have : seen.any (fun s => same_key chains s x) = true :=
            List.any_eq_true.2 ⟨s, hs, hsx⟩
          simp [this, hrx]
      simp only [hseen, Bool.not_true, Bool.false_eq_true, if_false, if_true]
      rw [ih (pre ++ [r]) seen hinv', hlen, ← happ]
    · have hseen' : seen.any (fun s => same_key chains s r) = false := by simpa using hseen
      have hinv' : ∀ x, (r :: seen).any (fun s => same_key chains s x)
          = (pre ++ [r]).any (fun s => same_key chains s x) := by
        intro x
        rw [List.any_append, ← hinv x, List.any_cons]
        simp [Bool.or_comm]
      simp only [hseen', Bool.false_eq_true, if_false, Bool.not_false, if_true, List.map_cons]
      rw [ih (pre ++ [r]) (r :: seen) hinv', hlen, ← happ]

/-- C11: a distinct stage applied by `do_sort` gives a subsequence of the row-index sequence,
in the order of the sequence; of the rows that carry a given composite key it
keeps exactly one, the first row of the sequence that carries it (and none when
no row carries it); and the row at a position of the sequence is kept exactly
when no row at an earlier position carries its composite key, so that what is
kept of a key is its first occurrence, also in a sequence that repeats a row.
On the rows (colA=1, id=0), (colA=2, id=1), (colA=1, id=2), distinct on colA
keeps the rows 0 and 1; on the sequence of the rows 0, 1, 0 of a column 1, 2 it
keeps the sequence 0, 1. -/
theorem C11_distinct_keeps_first_occurrence :
    (∀ (d : DistinctDescriptor) (rows : List Nat),
      ((RowIndexes.do_sort ⟨rows⟩ ⟨[.distinct d]⟩).m_row_indexes).Sublist rows ∧
      (∀ x, ((RowIndexes.do_sort ⟨rows⟩ ⟨[.distinct d]⟩).m_row_indexes).filter
          (fun r => same_key d.chains x r)
        = (rows.find? (fun r => same_key d.chains x r)).toList) ∧
      (RowIndexes.do_sort ⟨rows⟩ ⟨[.distinct d]⟩).m_row_indexes
        = (rows.enum.filter
            (fun p => !(rows.take p.1).any (fun s => same_key d.chains s p.2))).map
            Prod.snd) ∧
    (RowIndexes.do_sort ⟨[0, 1, 2]⟩
      ⟨[.distinct ⟨[[.leaf [1, 2, 1]]], []⟩]⟩).m_row_indexes = [0, 1] ∧
    (RowIndexes.do_sort ⟨[0, 1, 0]⟩
      ⟨[.distinct ⟨[[.leaf [1, 2]]], []⟩]⟩).m_row_indexes = [0, 1] := by
  refine ⟨?_, by decide, by decide⟩
  intro d rows
  have hout : (RowIndexes.do_sort ⟨rows⟩ ⟨[.distinct d]⟩).m_row_indexes
      = distinct_from d.chains [] rows := rfl
  rw [hout]
  refine ⟨distinct_from_sublist d.chains rows [], fun x => ?_, ?_⟩
  · rw [distinct_from_filter]
    simp
  · exact distinct_from_eq_positions d.chains rows [] [] (fun _ => rfl)

/-- C11 on the rows (colA=1, id=0), (colA=2, id=1), (colA=1, id=2): the rows kept are a
subsequence of the rows, rows 0 and 1, the rows at the positions that no row
with the same value of colA precedes. -/
theorem C11_distinct_keeps_first_occurrence_witness :
    ((RowIndexes.do_sort ⟨[0, 1, 2]⟩
      ⟨[.distinct ⟨[[.leaf [1, 2, 1]]], []⟩]⟩).m_row_indexes).Sublist [0, 1, 2] ∧
    (RowIndexes.do_sort ⟨[0, 1, 2]⟩
      ⟨[.distinct ⟨[[.leaf [1, 2, 1]]], []⟩]⟩).m_row_indexes
      = (([0, 1, 2] : List Nat).enum.filter
          (fun p => !(([0, 1, 2] : List Nat).take p.1).any
            (fun s => same_key (SortDescriptor.chains ⟨[[.leaf [1, 2, 1]]], []⟩) s p.2))).map
          Prod.snd ∧
    (RowIndexes.do_sort ⟨[0, 1, 2]⟩
      ⟨[.distinct ⟨[[.leaf [1, 2, 1]]], []⟩]⟩).m_row_indexes = [0, 1] :=
  ⟨(C11_distinct_keeps_first_occurrence.1 ⟨[[.leaf [1, 2, 1]]], []⟩ [0, 1, 2]).1,
    (C11_distinct_keeps_first_occurrence.1 ⟨[[.leaf [1, 2, 1]]], []⟩ [0, 1, 2]).2.2,
    C11_distinct_keeps_first_occurrence.2.1⟩

/-- C13: `has_custom_order()` is true exactly when some entry of the ascending-flag list is
false; it is false for an empty flag list, whatever the chains, and for the
default-constructed descriptor. -/
theorem C13_has_custom_order_iff_some_descending :
    (∀ d : SortDescriptor, d.has_custom_order = true ↔ ∃ b ∈ d.m_ascending, b = false) ∧
    (∀ columns : List (List ColumnBase),
      (SortDescriptor.mk columns []).has_custom_order = false) ∧
    SortDescriptor.default.has_custom_order = false := by
  refine ⟨fun d => ?_, fun _ => rfl, rfl⟩
  simp [SortDescriptor.has_custom_order, List.any_eq_true]

/-- C14: a `SortDescriptor` converts to true exactly when its list of resolved column chains is
not empty; the default-constructed descriptor converts to false. -/
theorem C14_operator_bool_iff_has_chains :
    (∀ d : SortDescriptor, d.operator_bool = true ↔ d.m_columns ≠ []) ∧
    SortDescriptor.default.operator_bool = false := by
  refine ⟨fun d => ?_, rfl⟩
  cases h : d.m_columns <;> simp [SortDescriptor.operator_bool, h]

/-- C15: `RowIndexes::is_in_sync()`, as the base class defines it, returns true for every view,
and the view after the call, its row-index sequence included, is the view
before the call. -/
theorem C15_is_in_sync_default_true (v : RowIndexes) :
    v.is_in_sync = true ∧
    v.is_in_sync_call.1 = true ∧
    v.is_in_sync_call.2 = v ∧
    v.is_in_sync_call.2.m_row_indexes = v.m_row_indexes :=
  ⟨rfl, rfl, rfl, rfl⟩

end realm

namespace tightdb

/-- The effect of `detach()` on the members of an accessor does not change when it is repeated. -/
theorem detach_members_idem (t : Table) : t.detach_members.detach_members = t.detach_members := by
  simp [Table.detach_members, Table.discard_desc_accessor, Table.discard_row_accessors,
    Table.detach_views_except, Table.destroy_column_accessors, Array.detach, Array.set_parent]

/-- After `detach()` the members of an accessor are those of a detached accessor. -/
theorem detach_members_detached (t : Table) :
    t.detach_members.is_attached = false ∧ t.detach_members.m_views = [] ∧
    t.detach_members.m_row_accessors = [] := by
  simp [Table.detach_members, Table.discard_desc_accessor, Table.discard_row_accessors,
    Table.detach_views_except, Table.destroy_column_accessors, Array.detach, Array.set_parent,
    Table.is_attached, Array.has_parent]

mutual

/-- The accessors `detach()` detaches beneath an accessor are all the accessors beneath it, each
one with its members as `detach()` leaves them. -/
theorem detach_snd_eq : ∀ a : TableAccessor,
    (a.detach).2 = a.descendants.map Table.detach_members
  | .mk table subtables => by
    rw [TableAccessor.detach, TableAccessor.descendants]
    exact discard_subtable_accessors_eq subtables

/-- The accessors `discard_subtable_accessors` detaches are the accessors of the list and those
beneath them, each one with its members as `detach()` leaves them. -/
theorem discard_subtable_accessors_eq : ∀ subtables : List TableAccessor,
    discard_subtable_accessors subtables
      = (descendants_of subtables).map Table.detach_members
  | [] => by rw [discard_subtable_accessors, descendants_of]; rfl
  | s :: rest => by
    rw [discard_subtable_accessors, descendants_of, detach_snd_eq s,
      discard_subtable_accessors_eq rest]
    cases s with
    | mk table subtables =>
      simp [TableAccessor.detach, TableAccessor.table]

end

/-- The accessor `detach()` leaves has the detached members and no subtable accessor. -/
theorem detach_fst_eq (a : TableAccessor) :
    (a.detach).1 = .mk a.table.detach_members [] := by
  cases a with
  | mk table subtables => rw [TableAccessor.detach, TableAccessor.table]

/-- C12: after `detach()` the accessor is not attached (`is_attached()` is false), no subtable
accessor is registered beneath it, and its references to views and to row
accessors are discarded; the accessors that were beneath it, at every depth,
have all been detached, and each of them is not attached and has discarded its
view and row accessor references; and `detach()` on the accessor so detached
leaves it as it is and finds nothing more to detach. -/
theorem C12_detach_recursive_and_idempotent (a : TableAccessor) :
    (a.detach).1.table.is_attached = false ∧
    (a.detach).1.subtables = [] ∧
    (a.detach).1.table.m_views = [] ∧
    (a.detach).1.table.m_row_accessors = [] ∧
    ((a.detach).2).length = a.descendants.length ∧
    (∀ s ∈ (a.detach).2,
      s.is_attached = false ∧ s.m_views = [] ∧ s.m_row_accessors = []) ∧
    ((a.detach).1.detach = ((a.detach).1, [])) := by
  have h1 := detach_fst_eq a
  have h2 := detach_snd_eq a
  have hd := detach_members_detached a.table
  refine ⟨?_, ?_, ?_, ?_, ?_, ?_, ?_⟩
  · rw [h1]; exact hd.1
  · rw [h1]; rfl
  · rw [h1]; exact hd.2.1
  · rw [h1]; exact hd.2.2
  · rw [h2, List.length_map]
  · intro s hs
    rw [h2, List.mem_map] at hs
    obtain ⟨s0, _, rfl⟩ := hs
    exact detach_members_detached s0
  · rw [h1, TableAccessor.detach, detach_members_idem, discard_subtable_accessors]

/-- C16: for an attached accessor, `has_shared_type()` is true exactly when `m_top` is not
attached, so the accessor is in exactly one of the two states: independent
schema (`m_top` attached and `has_shared_type()` false) or shared schema (`m_top`
not attached and `has_shared_type()` true). -/
theorem C16_has_shared_type_iff_top_unattached (t : Table) (_h : t.is_attached = true) :
    (t.has_shared_type = true ↔ t.m_top.is_attached = false) ∧
    Xor' (t.m_top.is_attached = true ∧ t.has_shared_type = false)
      (t.m_top.is_attached = false ∧ t.has_shared_type = true) := by
  cases htop : t.m_top.is_attached <;> simp [Table.has_shared_type, htop, Xor']

/-- C16 on a freestanding table, an attached accessor whose `m_top` is attached: it has an
independent schema. -/
theorem C16_has_shared_type_iff_top_unattached_witness :
    (int_table [1, 2]).is_attached = true ∧
    ((int_table [1, 2]).has_shared_type = true ↔ (int_table [1, 2]).m_top.is_attached = false) ∧
    (int_table [1, 2]).has_shared_type = false :=
  ⟨by decide, (C16_has_shared_type_iff_top_unattached (int_table [1, 2]) (by decide)).1,
    by decide⟩

/-- C17: `is_degenerate()` is true exactly when `m_columns` is not attached to storage; an
accessor whose `m_columns` holds a parent link and no storage is both attached
and degenerate, and there is such an accessor. -/
theorem C17_is_degenerate_iff_columns_unattached :
    (∀ t : Table, t.is_degenerate = true ↔ t.m_columns.is_attached = false) ∧
    (∀ t : Table, t.m_columns.m_parent ≠ none → t.m_columns.m_data = none →
      t.is_attached = true ∧ t.is_degenerate = true) ∧
    (∃ t : Table, t.is_attached = true ∧ t.is_degenerate = true) := by
  refine ⟨fun t => ?_, fun t hp hd => ?_, ?_⟩
  · cases h : t.m_columns.is_attached <;> simp [Table.is_degenerate, h]
  · cases hpar : t.m_columns.m_parent with
    | none => exact absurd hpar hp
    | some p =>
      simp [Table.is_attached, Table.is_degenerate, Array.has_parent, Array.is_attached, hpar, hd]
  · exact ⟨{ m_size := 0
             m_top := { m_data := none, m_parent := none, m_ndx_in_parent := 0 }
             m_columns := { m_data := none, m_parent := some 7, m_ndx_in_parent := 3 }
             m_cols := []
             m_ref_count := 0
             m_views := [] }, by decide, by decide⟩

/-- C18: `a == t` gives true exactly when the specs compare equal and `compare_rows` gives true;
when the specs differ it gives false whatever `compare_rows` would do (the rows
are not compared), and when they are equal it gives what `compare_rows` gives;
`a != t` gives the negation of what `a == t` gives. -/
theorem C18_operator_eq_spec_and_rows (compare_rows : Table → Table → Option Bool)
    (a t : Table) :
    (a.operator_eq compare_rows t = some true
      ↔ (a.m_spec = t.m_spec ∧ compare_rows a t = some true)) ∧
    (a.m_spec ≠ t.m_spec → a.operator_eq compare_rows t = some false) ∧
    (a.m_spec = t.m_spec → a.operator_eq compare_rows t = compare_rows a t) ∧
    a.operator_ne compare_rows t = (a.operator_eq compare_rows t).map (fun r => !r) ∧
    (∀ r, a.operator_eq compare_rows t = some r → a.operator_ne compare_rows t = some (!r)) := by
  refine ⟨?_, ?_, ?_, rfl, ?_⟩
  · by_cases h : a.m_spec = t.m_spec <;> simp [Table.operator_eq, h]
  · intro h
    simp [Table.operator_eq, h]
  · intro h
    simp [Table.operator_eq, h]
  · intro r hr
    simp [Table.operator_ne, hr]

/-- C19: on a table of `n` rows, `add_empty_row(k)` performs `insert_empty_row(n, k)`: when that
gives a table, the table after the call is that table and the value returned is
`n`, the index of the first new row; when it throws, so does the call. -/
theorem C19_add_empty_row_inserts_at_end
    (insert_empty_row : Table → Nat → Nat → Option Table) (t : Table) (k : Nat) :
    (∀ t1, insert_empty_row t t.size k = some t1 →
      t.add_empty_row insert_empty_row k = some (t1, t.size)) ∧
    (insert_empty_row t t.size k = none → t.add_empty_row insert_empty_row k = none) ∧
    (∀ t1 row_ndx, t.add_empty_row insert_empty_row k = some (t1, row_ndx) →
      row_ndx = t.size ∧ insert_empty_row t t.size k = some t1) := by
  refine ⟨?_, ?_, ?_⟩
  · intro t1 h
    simp only [Table.size] at h
    simp [Table.add_empty_row, h, Table.size]
  · intro h
    simp only [Table.size] at h
    simp [Table.add_empty_row, h]
  · intro t1 row_ndx h
    simp only [Table.add_empty_row, Option.bind_eq_some] at h
    obtain ⟨t2, h2, h3⟩ := h
    simp only [Option.some.injEq, Prod.mk.injEq] at h3
    obtain ⟨rfl, rfl⟩ := h3
    exact ⟨rfl, h2⟩

/-- C20: for an attached table, with the real top array being `m_top` when that is attached and
`m_columns` otherwise: when the real top array has no parent `get_name()` returns
the empty string, and otherwise it returns what the parent answers to
`get_child_name` for the index of the real top array in the parent. -/
theorem C20_get_name_from_parent (get_child_name : Nat → Nat → String) (t : Table)
    (_h : t.is_attached = true) :
    ((if t.m_top.is_attached = true then t.m_top else t.m_columns).m_parent = none →
      t.get_name get_child_name = "") ∧
    (∀ parent, (if t.m_top.is_attached = true then t.m_top else t.m_columns).m_parent
        = some parent →
      t.get_name get_child_name = get_child_name parent
        (if t.m_top.is_attached = true then t.m_top else t.m_columns).m_ndx_in_parent) := by
  constructor
  · intro hp
    simp only [Table.get_name, Array.get_parent, hp]
  · intro parent hp
    simp only [Table.get_name, Array.get_parent, hp, Array.get_ndx_in_parent]

/-- C20 on a freestanding table, whose real top array `m_top` has no parent: the name is empty. -/
theorem C20_get_name_from_parent_witness :
    (int_table [1, 2]).is_attached = true ∧
    (int_table [1, 2]).get_name (fun _ _ => "name") = "" :=
  ⟨by decide,
    (C20_get_name_from_parent (fun _ _ => "name") (int_table [1, 2]) (by decide)).1
      (by decide)⟩

end tightdb

namespace realm

/-- The member `sum_type` of `ColumnTypeTraitsSum`, case by case: `double` for `float` with
`act_Sum`, `int64_t` for the nullable integer, the source type otherwise. -/
theorem ColumnTypeTraitsSum_cases (T : CppType) (A : Action) :
    ColumnTypeTraitsSum T A
      = if T = .float ∧ A = .act_Sum then .double
        else if T = .Optional .int64_t then .int64_t else T := by
  cases T with
  | Optional T' => cases T' <;> cases A <;> simp [ColumnTypeTraitsSum]
  | _ => cases A <;> simp [ColumnTypeTraitsSum]

/-- The member `result_type` of `AggregateResultType`, case by case: `double` for `float` with
`act_Sum`, `int64_t` for the nullable integer, the source type otherwise. -/
theorem AggregateResultType_cases (T : CppType) (A : Action) :
    AggregateResultType T A
      = if T = .float ∧ A = .act_Sum then .double
        else if T = .Optional .int64_t then .int64_t else T := by
  cases T with
  | Optional T' => cases T' <;> cases A <;> simp [AggregateResultType]
  | _ => cases A <;> simp [AggregateResultType]

/-- C21, as stated, fails at `double`: `ColumnTypeTraitsSum<double, act_Sum>::sum_type` is `double`
and `double` is not `float`; so does `ColumnTypeTraitsSum<double, act_Min>::sum_type`,
where the action is not `act_Sum` either. -/
theorem C21_counterexample_double :
    ColumnTypeTraitsSum .double .act_Sum = .double ∧
    ColumnTypeTraitsSum .double .act_Min = .double ∧
    CppType.double ≠ CppType.float ∧
    ¬ (∀ (T : CppType) (A : Action),
        ColumnTypeTraitsSum T A = .double ↔ (T = .float ∧ A = .act_Sum)) := by
  refine ⟨rfl, rfl, by decide, fun h => ?_⟩
  have h1 := (h .double .act_Sum).1 rfl
  exact absurd h1.1 (by decide)

/-- C21, amended: `ColumnTypeTraitsSum<T, A>::sum_type` is `double` exactly when `T` is `double`, or
`T` is `float` and `A` is `act_Sum`; so it is `double` for a source type other than
`double` exactly when `T` is `float` and `A` is `act_Sum`. -/
theorem C21_sum_type_double_iff (T : CppType) (A : Action) :
    (ColumnTypeTraitsSum T A = .double ↔ (T = .double ∨ (T = .float ∧ A = .act_Sum))) ∧
    ((ColumnTypeTraitsSum T A = .double ∧ T ≠ .double) ↔ (T = .float ∧ A = .act_Sum)) := by
  rw [ColumnTypeTraitsSum_cases]
  by_cases hf : T = .float ∧ A = .act_Sum
  · obtain ⟨rfl, rfl⟩ := hf
    simp
  · by_cases ho : T = .Optional .int64_t
    · subst ho
      simp
    · rw [if_neg hf, if_neg ho]
      refine ⟨⟨fun h => Or.inl h, fun h => ?_⟩, ⟨fun h => absurd h.1 h.2, fun h => absurd h hf⟩⟩
      rcases h with h | h
      · exact h
      · exact absurd h hf

/-- C27: for every source type and every aggregate action the two lookups agree,
`AggregateResultType<T, A>::result_type` is `ColumnTypeTraitsSum<T, A>::sum_type`: both are
`int64_t` for the nullable integer, `double` for `float` with `act_Sum`, and the source
type otherwise. -/
theorem C27_aggregate_lookups_agree (T : CppType) (A : Action) :
    AggregateResultType T A = ColumnTypeTraitsSum T A ∧
    (T = .Optional .int64_t →
      AggregateResultType T A = .int64_t ∧ ColumnTypeTraitsSum T A = .int64_t) ∧
    (T = .float → A = .act_Sum →
      AggregateResultType T A = .double ∧ ColumnTypeTraitsSum T A = .double) ∧
    (T ≠ .Optional .int64_t → ¬ (T = .float ∧ A = .act_Sum) →
      AggregateResultType T A = T ∧ ColumnTypeTraitsSum T A = T) := by
  rw [AggregateResultType_cases, ColumnTypeTraitsSum_cases]
  refine ⟨rfl, ?_, ?_, ?_⟩
  · rintro rfl
    simp
  · rintro rfl rfl
    simp
  · intro ho hf
    simp [ho, hf]

/-- C28: `GetColumnType` maps the integer type to `IntegerColumn` when not nullable and to
`IntNullColumn` when nullable, maps `type_Float` to `FloatColumn` and `type_Double` to
`DoubleColumn` for both values of the nullability flag, and is defined for no
other data type. -/
theorem C28_GetColumnType_mapping :
    GetColumnType .type_Int false = some .IntegerColumn ∧
    GetColumnType .type_Int true = some .IntNullColumn ∧
    (∀ N : Bool, GetColumnType .type_Float N = some .FloatColumn) ∧
    (∀ N : Bool, GetColumnType .type_Double N = some .DoubleColumn) ∧
    (∀ (type : DataType) (N : Bool),
      (GetColumnType type N).isSome = true
        ↔ (type = .type_Int ∨ type = .type_Float ∨ type = .type_Double)) := by
  refine ⟨rfl, rfl, fun N => by cases N <;> rfl, fun N => by cases N <;> rfl, ?_⟩
  intro type N
  cases type <;> cases N <;> simp [GetColumnType]

end realm

namespace tightdb

/-- C22: `remove(r)` detaches every registered view and deletes row `r`; `from_view_remove(r, v)`
detaches every registered view other than `v`, keeps `v` registered when it was,
and deletes the same row `r`; the table after the one is the table after the
other but for the registered views. -/
theorem C22_remove_and_from_view_remove (t : Table) (r v : Nat) :
    t.remove r = (t.detach_views_except none).do_remove r ∧
    t.from_view_remove r (some v) = (t.detach_views_except (some v)).do_remove r ∧
    (t.remove r).m_views = [] ∧
    (∀ w, w ∈ (t.from_view_remove r (some v)).m_views ↔ (w ∈ t.m_views ∧ w = v)) ∧
    (t.remove r).m_cols = t.m_cols.map (fun col => col.eraseIdx r) ∧
    (t.from_view_remove r (some v)).m_cols = (t.remove r).m_cols ∧
    (t.from_view_remove r (some v)).m_size = (t.remove r).m_size ∧
    (t.remove r).m_size = t.m_size - 1 ∧
    t.from_view_remove r (some v)
      = { t.remove r with m_views := t.m_views.filter (fun w => w == v) } ∧
    t.remove r = { t.from_view_remove r (some v) with m_views := [] } := by
  refine ⟨rfl, rfl, ?_, ?_, rfl, rfl, rfl, rfl, ?_, ?_⟩
  · simp [Table.remove, Table.do_remove, Table.detach_views_except]
  · intro w
    simp [Table.from_view_remove, Table.do_remove, Table.detach_views_except]
  · simp [Table.from_view_remove, Table.remove, Table.do_remove, Table.detach_views_except]
  · simp [Table.from_view_remove, Table.remove, Table.do_remove, Table.detach_views_except]

/-- C23: `bind_ref()` adds one to the reference count (when the count after it is a value of
`std::size_t`); `unbind_ref()` on a count of at least one takes one off, and it
destroys the accessor exactly when the count becomes zero; `bind_ref()` followed
by `unbind_ref()` on a count of at least one leaves the accessor as it was and
does not destroy it; the constructors for the stack start the count at 1 and
the reference-counted ones at 0. -/
theorem C23_reference_counting :
    (∀ t : Table, t.m_ref_count + 1 < size_t_modulus →
      t.bind_ref.m_ref_count = t.m_ref_count + 1) ∧
    (∀ t : Table, 1 ≤ t.m_ref_count → t.m_ref_count < size_t_modulus →
      t.unbind_ref.1.m_ref_count = t.m_ref_count - 1) ∧
    (∀ t : Table, t.unbind_ref.2 = true ↔ t.unbind_ref.1.m_ref_count = 0) ∧
    (∀ t : Table, 1 ≤ t.m_ref_count → t.m_ref_count < size_t_modulus →
      t.bind_ref.unbind_ref = (t, false)) ∧
    (∀ stored ref, (Table.construct stored ref).m_ref_count = 1) ∧
    (∀ stored clone_ref, (Table.construct_copy stored clone_ref).m_ref_count = 1) ∧
    (∀ stored top_ref parent ndx_in_parent,
      (Table.construct_ref_counted stored top_ref parent ndx_in_parent).m_ref_count = 0) ∧
    (∀ stored_columns shared_spec columns_ref parent ndx_in_parent,
      (Table.construct_ref_counted_shared stored_columns shared_spec columns_ref parent
        ndx_in_parent).m_ref_count = 0) := by
  refine ⟨?_, ?_, ?_, ?_, fun _ _ => rfl, fun _ _ => rfl, fun _ _ _ _ => rfl, ?_⟩
  · intro t h
    simp only [Table.bind_ref]
    exact Nat.mod_eq_of_lt h
  · intro t h1 h2
    simp only [Table.unbind_ref]
    have hM : 0 < size_t_modulus := by decide
    have : t.m_ref_count + size_t_modulus - 1 = (t.m_ref_count - 1) + size_t_modulus := by
      omega
    rw [this, Nat.add_mod_right]
    exact Nat.mod_eq_of_lt (by omega)
  · intro t
    simp [Table.unbind_ref]
  · intro t h1 h2
    have hcount : ((t.m_ref_count + 1) % size_t_modulus + size_t_modulus - 1) % size_t_modulus
        = t.m_ref_count := by
      by_cases hc : t.m_ref_count + 1 = size_t_modulus
      · have hsub : 0 + size_t_modulus - 1 = t.m_ref_count := by omega
        rw [hc, Nat.mod_self, hsub]
        exact Nat.mod_eq_of_lt h2
      · have hsub : t.m_ref_count + 1 + size_t_modulus - 1 = t.m_ref_count + size_t_modulus := by
          omega
        have hlt : t.m_ref_count + 1 < size_t_modulus := by omega
        rw [Nat.mod_eq_of_lt hlt, hsub, Nat.add_mod_right]
        exact Nat.mod_eq_of_lt h2
    simp only [Table.unbind_ref, Table.bind_ref, hcount]
    have hne : (t.m_ref_count == 0) = false := by
      simp only [beq_eq_false_iff_ne, ne_eq]
      omega
    rw [hne]
  · intro sc ss cr p n
    simp only [Table.construct_ref_counted_shared, Table.init_from_ref_shared]
    split_ifs <;> rfl

/-- C23 on an accessor with the count 1: `bind_ref()` gives the count 2, `unbind_ref()` after it
gives the accessor back and does not destroy it, and `unbind_ref()` alone takes
the count to 0 and destroys it. -/
theorem C23_reference_counting_witness :
    (int_table [1]).m_ref_count + 1 < size_t_modulus ∧
    (int_table [1]).bind_ref.m_ref_count = 2 ∧
    (int_table [1]).bind_ref.unbind_ref = (int_table [1], false) ∧
    (int_table [1]).unbind_ref.2 = true :=
  ⟨by decide, C23_reference_counting.1 (int_table [1]) (by decide),
    C23_reference_counting.2.2.2.1 (int_table [1]) (by decide) (by decide), by decide⟩

/-- C24: in a build with `TIGHTDB_DEBUG`, `get_column<C, coltype>(ndx)` returns the column that
`get_column_base(ndx)` gives when `validate_column_type` passes on it and the
requested type, and returns nothing when it fails; in a build without it the
result is the column that `get_column_base(ndx)` gives, whatever
`validate_column_type` would say; the const overload does the same in both
builds. -/
theorem C24_get_column_validates_in_debug {C : Type} (get_column_base : Table → Nat → C)
    (validate_column_type : C → realm.ColumnType → Nat → Bool) (t : Table)
    (coltype : realm.ColumnType) (ndx : Nat) :
    (validate_column_type (get_column_base t ndx) coltype ndx = true →
      t.get_column true get_column_base validate_column_type coltype ndx
        = some (get_column_base t ndx)) ∧
    (validate_column_type (get_column_base t ndx) coltype ndx = false →
      t.get_column true get_column_base validate_column_type coltype ndx = none) ∧
    t.get_column false get_column_base validate_column_type coltype ndx
      = some (get_column_base t ndx) ∧
    (∀ other : C → realm.ColumnType → Nat → Bool,
      t.get_column false get_column_base other coltype ndx
        = t.get_column false get_column_base validate_column_type coltype ndx) ∧
    (∀ debug : Bool,
      t.get_column_const debug get_column_base validate_column_type coltype ndx
        = t.get_column debug get_column_base validate_column_type coltype ndx) := by
  refine ⟨?_, ?_, rfl, fun _ => rfl, fun _ => rfl⟩
  · intro h
    simp [Table.get_column, h]
  · intro h
    simp [Table.get_column, h]

/-- C24 on a table of one integer column, with the column type of the spec as the stored type:
asked for an integer column the debug build returns the column, asked for a
string column it returns nothing, and the build without the check returns the
column all the same. -/
theorem C24_get_column_validates_in_debug_witness :
    (int_table [1, 2]).get_column true (fun t ndx => t.m_cols.getD ndx [])
      (fun _ coltype _ => coltype == .col_type_Int) .col_type_Int 0
      = some [Value.int 1, Value.int 2] ∧
    (int_table [1, 2]).get_column true (fun t ndx => t.m_cols.getD ndx [])
      (fun _ coltype _ => coltype == .col_type_Int) .col_type_String 0 = none ∧
    (int_table [1, 2]).get_column false (fun t ndx => t.m_cols.getD ndx [])
      (fun _ coltype _ => coltype == .col_type_Int) .col_type_String 0
      = some [Value.int 1, Value.int 2] :=
  ⟨(C24_get_column_validates_in_debug (fun t ndx => t.m_cols.getD ndx [])
      (fun _ coltype _ => coltype == .col_type_Int) (int_table [1, 2]) .col_type_Int 0).1
      (by decide),
    (C24_get_column_validates_in_debug (fun t ndx => t.m_cols.getD ndx [])
      (fun _ coltype _ => coltype == .col_type_Int) (int_table [1, 2]) .col_type_String 0).2.1
      (by decide),
    by decide⟩

/-- C25: `remove_last()` leaves an empty table as it is, its rows and its registered views
included, and on a table of at least one row it gives the table that
`remove(size() - 1)` gives. -/
theorem C25_remove_last (t : Table) :
    (t.size = 0 → t.remove_last = t) ∧
    (1 ≤ t.size → t.remove_last = t.remove (t.size - 1)) := by
  constructor
  · intro h
    simp only [Table.size] at h
    simp [Table.remove_last, Table.is_empty, h]
  · intro h
    simp only [Table.size] at h
    have hne : (t.m_size == 0) = false := by
      simp only [beq_eq_false_iff_ne, ne_eq]
      omega
    simp [Table.remove_last, Table.is_empty, hne]

/-- C25 on a table with the rows 1 2 3 and a registered view: `remove_last()` leaves the rows
1 2 and no registered view, as `remove(2)` does; on the table without rows it
changes nothing. -/
theorem C25_remove_last_witness :
    1 ≤ ({ int_table [1, 2, 3] with m_views := [5] } : Table).size ∧
    ({ int_table [1, 2, 3] with m_views := [5] } : Table).remove_last
      = ({ int_table [1, 2, 3] with m_views := [5] } : Table).remove 2 ∧
    ({ int_table [1, 2, 3] with m_views := [5] } : Table).remove_last.m_cols
      = [[.int 1, .int 2]] ∧
    ({ int_table [1, 2, 3] with m_views := [5] } : Table).remove_last.m_views = [] ∧
    ({ int_table [] with m_views := [5] } : Table).remove_last
      = ({ int_table [] with m_views := [5] } : Table) :=
  ⟨by decide,
    (C25_remove_last { int_table [1, 2, 3] with m_views := [5] }).2 (by decide),
    by decide, by decide,
    (C25_remove_last { int_table [] with m_views := [5] }).1 (by decide)⟩

/-- C26: `t.set_into_mixed(p, c, r)` has the effect of `p.insert_mixed_subtable(c, r, &t)`, whatever
`set_mixed_subtable` is, and so another effect than `p.set_mixed_subtable(c, r, &t)`
wherever the two differ; `t.insert_into(p, c, r)` has the effect of
`p.insert_subtable(c, r, &t)`. -/
theorem C26_set_into_mixed_inserts {R : Type} (members : SubtableMembers R) (t p : Table)
    (c r : Nat) :
    t.set_into_mixed members p c r = members.insert_mixed_subtable p c r (some t) ∧
    t.insert_into members p c r = members.insert_subtable p c r (some t) ∧
    (∀ other : Table → Nat → Nat → Option Table → R,
      t.set_into_mixed { members with set_mixed_subtable := other } p c r
        = t.set_into_mixed members p c r) ∧
    (members.insert_mixed_subtable p c r (some t) ≠ members.set_mixed_subtable p c r (some t) →
      t.set_into_mixed members p c r ≠ members.set_mixed_subtable p c r (some t)) :=
  ⟨rfl, rfl, fun _ => rfl, fun h => h⟩

/-- C26 where the effect of a member is the number of cells of the column after it (an insertion
adds a cell, an overwrite adds none): `set_into_mixed` adds a cell, which
`set_mixed_subtable` does not. -/
theorem C26_set_into_mixed_inserts_witness :
    (int_table [1]).set_into_mixed
        { insert_subtable := fun p _ _ _ => p.m_size + 1
          insert_mixed_subtable := fun p _ _ _ => p.m_size + 1
          set_subtable := fun p _ _ _ => p.m_size
          set_mixed_subtable := fun p _ _ _ => p.m_size }
        (int_table [7, 8]) 0 1 = 3 ∧
    (int_table [1]).set_into_mixed
        { insert_subtable := fun p _ _ _ => p.m_size + 1
          insert_mixed_subtable := fun p _ _ _ => p.m_size + 1
          set_subtable := fun p _ _ _ => p.m_size
          set_mixed_subtable := fun p _ _ _ => p.m_size }
        (int_table [7, 8]) 0 1 ≠ 2 :=
  ⟨(C26_set_into_mixed_inserts
      { insert_subtable := fun p _ _ _ => p.m_size + 1
        insert_mixed_subtable := fun p _ _ _ => p.m_size + 1
        set_subtable := fun p _ _ _ => p.m_size
        set_mixed_subtable := fun p _ _ _ => p.m_size }
      (int_table [1]) (int_table [7, 8]) 0 1).1,
    (C26_set_into_mixed_inserts
      { insert_subtable := fun p _ _ _ => p.m_size + 1
        insert_mixed_subtable := fun p _ _ _ => p.m_size + 1
        set_subtable := fun p _ _ _ => p.m_size
        set_mixed_subtable := fun p _ _ _ => p.m_size }
      (int_table [1]) (int_table [7, 8]) 0 1).2.2.2 (by decide)⟩

/-- C29: `Table::is_link_type(t)` is true exactly when `t` is `type_Link` or `type_LinkList`. -/
theorem C29_is_link_type_iff (type : realm.DataType) :
    Table.is_link_type type = true ↔ (type = .type_Link ∨ type = .type_LinkList) := by
  cases type <;> simp [Table.is_link_type]

end tightdb
